import Mathlib

/-!
# Route53 DNS synchronisation for Kubernetes services

A shallow embedding of the synchronisation engine of
`kubernetes-service-dns-update` (`processor.go`, `aws.go`, `kubernetes.go`)
and theorems about it.

Conventions of the embedding:

* A Go `string` is a Lean `String`; `len` is the length in bytes of the UTF-8
  encoding. Go strings that are not valid UTF-8 are outside the model.
* A Go `error` is an `Option String`: `none` is `nil`, `some msg` is an error
  whose `Error()` text is `msg`.
* A Go function returning `(T, error)` returns a pair `T × Option String`.
* A function that can hit a run-time panic returns an `Option`; `none` is the
  panic.
* The collaborators behind the `KubernetesClient` and `AWSClient` interfaces
  are state machines: every method takes the collaborator's state and returns
  its answer together with the next state.
* A pass produces a trace of events: the interface calls it made and the lines
  it logged (without the logger's timestamp), in program order.
* A `*string` or `*bool` field of an AWS SDK type is an `Option`; so is the
  output pointer a provider method returns next to its `error`. A slice of
  pointers to structs is a list of structs: the SDK puts no nil element in the
  slices it returns.
* The package variables `namespace` and `dryRun` of `main.go` are parameters
  (`ns`, `dryRun`) of the functions that read them.
-/

namespace DnsUpdate

/-! ## Go built-ins and library functions used by the source -/

/-- The built-in `len(s)` of a Go string: the number of bytes of `s`. -/
def len (s : String) : Nat := s.utf8ByteSize

namespace aws

/-- The helper `aws.StringValue(p)` of the AWS SDK: the string a `*string`
points to, or `""` for a nil pointer. -/
def StringValue : Option String → String
  | some s => s
  | none => ""

end aws

namespace strings

/-- The function `strings.HasSuffix(s, suffix)`. -/
def HasSuffix (s suffix : String) : Bool := suffix.data.isSuffixOf s.data

/-- The pieces of a character list between the occurrences of the separator
`sep`; a list without separator is its own single piece. -/
def splitChars (sep : Char) : List Char → List (List Char)
  | [] => [[]]
  | c :: cs =>
    if c = sep then [] :: splitChars sep cs
    else
      match splitChars sep cs with
      | [] => [[c]]
      | p :: ps => (c :: p) :: ps

/-- The pieces put together again, with the separator `sep` between two
pieces. -/
def joinChars (sep : Char) : List (List Char) → List Char
  | [] => []
  | [p] => p
  | p :: q :: rest => p ++ sep :: joinChars sep (q :: rest)

/-- The function `strings.Split(s, sep)` for a separator of one byte (the
source only splits on `"-"`, `"."`, `","` and `"/"`). -/
def Split (s : String) (sep : Char) : List String :=
  (splitChars sep s.data).map String.mk

/-- The predicate `unicode.IsSpace`: the code points with the Unicode
White_Space property. -/
def isSpace (c : Char) : Bool :=
  let n := c.toNat
  (0x09 ≤ n && n ≤ 0x0D) || n == 0x20 || n == 0x85 || n == 0xA0 || n == 0x1680 ||
  (0x2000 ≤ n && n ≤ 0x200A) || n == 0x2028 || n == 0x2029 || n == 0x202F ||
  n == 0x205F || n == 0x3000

/-- The function `strings.TrimSpace(s)`: `s` without its leading and trailing
white space. -/
def TrimSpace (s : String) : String :=
  String.mk ((s.data.dropWhile isSpace).reverse.dropWhile isSpace).reverse

/-- The function `strings.Join(elems, sep)`. -/
def Join : List String → String → String
  | [], _ => ""
  | [a], _ => a
  | a :: b :: rest, sep => a ++ sep ++ Join (b :: rest) sep

/-- The function `strings.TrimLeft(s, cutset)`: `s` without its leading
characters that occur in `cutset`. -/
def TrimLeft (s cutset : String) : String :=
  String.mk (s.data.dropWhile fun c => cutset.data.contains c)

end strings

/-! ## Data model (`route53.HostedZone`, `v1.Service`) -/

/-- The fields of `route53.HostedZone` the source reads; both are `*string`. -/
structure HostedZone where
  Name : Option String
  Id : Option String
deriving DecidableEq, Repr

/-- The type `v1.ObjectMeta`: the fields the source reads. A Go map is an
association list read with `List.lookup`. -/
structure ObjectMeta where
  Name : String
  Namespace : String
  Annotations : List (String × String)
deriving DecidableEq, Repr

/-- The type `v1.LoadBalancerIngress`. -/
structure LoadBalancerIngress where
  IP : String
  Hostname : String
deriving DecidableEq, Repr

/-- The type `v1.LoadBalancerStatus`. -/
structure LoadBalancerStatus where
  Ingress : List LoadBalancerIngress
deriving DecidableEq, Repr

/-- The type `v1.ServiceStatus`. -/
structure ServiceStatus where
  LoadBalancer : LoadBalancerStatus
deriving DecidableEq, Repr

/-- The type `v1.Service`. -/
structure Service where
  ObjectMeta : ObjectMeta
  Status : ServiceStatus
deriving DecidableEq, Repr

/-- The promoted field `service.Name` of the embedded `ObjectMeta`. -/
def Service.Name (service : Service) : String := service.ObjectMeta.Name

/-! ## `aws.go`: hostname parser and zone matcher -/

/-- The function `domainWithTrailingDot` of `aws.go`. The slice expression
`withoutDot[len(withoutDot)-1:]` panics on the empty string. -/
def domainWithTrailingDot (withoutDot : String) : Option String :=
  match withoutDot.data.getLast? with
  | none => none
  | some c => if c = '.' then some withoutDot else some (withoutDot ++ ".")

/-- One iteration of the loop of `findMostSpecificZoneForDomain`, on the pair
`(mostSpecific, curLen)`. -/
def zoneStep (domain : String) (st : Option HostedZone × Nat) (zone : HostedZone) :
    Option HostedZone × Nat :=
  let zoneName := aws.StringValue zone.Name
  if strings.HasSuffix domain zoneName && decide (st.2 < len zoneName) then
    (some zone, len zoneName)
  else st

/-- The function `findMostSpecificZoneForDomain` of `aws.go`; `none` is the
panic of `domainWithTrailingDot`. -/
def findMostSpecificZoneForDomain (domain : String) (zones : List HostedZone) :
    Option (Option HostedZone × Option String) :=
  match domainWithTrailingDot domain with
  | none => none
  | some domain =>
    if zones.length < 1 then
      some (none, some ("No zone found for " ++ domain))
    else
      match (zones.foldl (zoneStep domain) (none, 0)).1 with
      | none => some (none, some ("No zone matches domain " ++ domain))
      | some mostSpecific => some (some mostSpecific, none)

/-- The function `loadBalancerNameFromHostname` of `aws.go`. -/
def loadBalancerNameFromHostname (hostname : String) : String × Option String :=
  let hostnameSegments := strings.Split hostname '-'
  match hostnameSegments with
  | s0 :: s1 :: _ =>
    let name := s0
    if name = "internal" then (s1, none) else (name, none)
  | _ => ("", some (hostname ++ " is not a valid ELB hostname"))

/-- The function `getTLD` of `aws.go`. -/
def getTLD (domain : String) : String × Option String :=
  let domainParts := strings.Split domain '.'
  let segments := domainParts.length
  if segments < 3 then
    ("", some ("Domain " ++ domain ++ " is invalid - it should be a fully qualified domain " ++
      "name and subdomain (i.e. test.example.com)"))
  else
    (strings.Join (domainParts.drop (segments - 2)) ".", none)

/-! ## `aws.go`: the AWS SDK types and the provider interfaces -/

/-- The type `route53.ListHostedZonesByNameInput`: the field the source sets. -/
structure ListHostedZonesByNameInput where
  DNSName : Option String
deriving DecidableEq, Repr

/-- The type `route53.ListHostedZonesByNameOutput`: the field the source
reads. -/
structure ListHostedZonesByNameOutput where
  HostedZones : List HostedZone
deriving DecidableEq, Repr

/-- The type `route53.AliasTarget`. -/
structure AliasTarget where
  DNSName : Option String
  EvaluateTargetHealth : Option Bool
  HostedZoneId : Option String
deriving DecidableEq, Repr

/-- The type `route53.ResourceRecordSet`: the fields the source sets (every
other field keeps its zero value). The field `Type` of the SDK is `Type_`. -/
structure ResourceRecordSet where
  AliasTarget : Option AliasTarget
  Name : Option String
  Type_ : Option String
deriving DecidableEq, Repr

/-- The type `route53.Change`. -/
structure Change where
  Action : Option String
  ResourceRecordSet : Option ResourceRecordSet
deriving DecidableEq, Repr

/-- The type `route53.ChangeBatch`. -/
structure ChangeBatch where
  Changes : List Change
  Comment : Option String
deriving DecidableEq, Repr

/-- The type `route53.ChangeResourceRecordSetsInput`. -/
structure ChangeResourceRecordSetsInput where
  ChangeBatch : Option ChangeBatch
  HostedZoneId : Option String
deriving DecidableEq, Repr

/-- The type `route53.ChangeResourceRecordSetsOutput`; the source discards
it. -/
structure ChangeResourceRecordSetsOutput where
deriving DecidableEq, Repr

/-- The type `elb.DescribeLoadBalancersInput`: the field the source sets, a
`[]*string`. -/
structure DescribeLoadBalancersInput where
  LoadBalancerNames : List (Option String)
deriving DecidableEq, Repr

/-- The type `elb.LoadBalancerDescription`: the field the source reads. -/
structure LoadBalancerDescription where
  CanonicalHostedZoneNameID : Option String
deriving DecidableEq, Repr

/-- The type `elb.DescribeLoadBalancersOutput`: the field the source reads. -/
structure DescribeLoadBalancersOutput where
  LoadBalancerDescriptions : List LoadBalancerDescription
deriving DecidableEq, Repr

/-- The interface `Route53Client`, over a provider with state `ρ`. -/
structure Route53Client (ρ : Type) where
  ListHostedZonesByName : ListHostedZonesByNameInput → ρ →
    (Option ListHostedZonesByNameOutput × Option String) × ρ
  ChangeResourceRecordSets : ChangeResourceRecordSetsInput → ρ →
    (Option ChangeResourceRecordSetsOutput × Option String) × ρ

/-- The interface `ELBClient`, over a provider with state `ε`. -/
structure ELBClient (ε : Type) where
  DescribeLoadBalancers : DescribeLoadBalancersInput → ε →
    (Option DescribeLoadBalancersOutput × Option String) × ε

/-- The type `AWSClientImpl`. -/
structure AWSClientImpl (ρ ε : Type) where
  route53 : Route53Client ρ
  elb : ELBClient ε

/-- A request sent to a provider, with its input. -/
inductive ProviderCall where
  | ListHostedZonesByName (input : ListHostedZonesByNameInput)
  | ChangeResourceRecordSets (input : ChangeResourceRecordSetsInput)
  | DescribeLoadBalancers (input : DescribeLoadBalancersInput)
deriving DecidableEq, Repr

/-- What a method of `AWSClientImpl` does that is visible from outside: the
requests it sends and the lines it logs. -/
inductive ProviderEvent where
  | call (c : ProviderCall)
  | log (line : String)
deriving DecidableEq, Repr

/-- What a method of `AWSClientImpl` leaves behind when it returns: the
returned values, the events in program order, and the states of the two
providers. -/
structure Outcome (τ σ : Type) where
  ret : τ
  events : List ProviderEvent
  state : σ
deriving DecidableEq, Repr

/-! ## `aws.go`: the methods of `AWSClientImpl`

Each method takes the states of the two providers and returns `none` when it
panics. -/

/-- The method `AWSClientImpl.GetHostedZoneID` of `aws.go`. It panics when the
provider returns a nil output with a nil error, when the zone matcher panics,
and when the index `len(zoneParts)-1` is out of range. -/
def AWSClientImpl.GetHostedZoneID {ρ ε : Type} (c : AWSClientImpl ρ ε) (domain : String)
    (s : ρ × ε) : Option (Outcome (String × Option String) (ρ × ε)) :=
  match getTLD domain with
  | (_, some err) => some { ret := ("", some err), events := [], state := s }
  | (tld, none) =>
    let listHostedZoneInput : ListHostedZonesByNameInput := { DNSName := some tld }
    match c.route53.ListHostedZonesByName listHostedZoneInput s.1 with
    | ((_, some err), r1) =>
      some { ret := ("", some ("No zone found for " ++ tld ++ ": " ++ err)),
             events := [.call (.ListHostedZonesByName listHostedZoneInput)],
             state := (r1, s.2) }
    | ((none, none), _) => none
    | ((some hzOut, none), r1) =>
      match findMostSpecificZoneForDomain domain hzOut.HostedZones with
      | none => none
      | some (_, some err) =>
        some { ret := ("", some err),
               events := [.call (.ListHostedZonesByName listHostedZoneInput)],
               state := (r1, s.2) }
      | some (none, none) => none
      | some (some hostedZone, none) =>
        let zoneParts := strings.Split (aws.StringValue hostedZone.Id) '/'
        match zoneParts.getLast? with
        | none => none
        | some zoneId =>
          some { ret := (zoneId, none),
                 events := [.call (.ListHostedZonesByName listHostedZoneInput)],
                 state := (r1, s.2) }

/-- The method `AWSClientImpl.GetLoadBalancerHostedZoneID` of `aws.go`. It
panics when the provider returns a nil output with a nil error. -/
def AWSClientImpl.GetLoadBalancerHostedZoneID {ρ ε : Type} (c : AWSClientImpl ρ ε)
    (hostname : String) (s : ρ × ε) : Option (Outcome (String × Option String) (ρ × ε)) :=
  match loadBalancerNameFromHostname hostname with
  | (_, some err) =>
    some { ret := ("", some ("Could not parse ELB hostname: " ++ err)), events := [], state := s }
  | (elbName, none) =>
    let lbInput : DescribeLoadBalancersInput := { LoadBalancerNames := [some elbName] }
    match c.elb.DescribeLoadBalancers lbInput s.2 with
    | ((_, some err), e1) =>
      some { ret := ("", some ("Could not describe load balancer: " ++ err)),
             events := [.call (.DescribeLoadBalancers lbInput)],
             state := (s.1, e1) }
    | ((none, none), _) => none
    | ((some resp, none), e1) =>
      let descs := resp.LoadBalancerDescriptions
      match descs with
      | [] =>
        some { ret := ("", some "No load balancer found"),
               events := [.call (.DescribeLoadBalancers lbInput)],
               state := (s.1, e1) }
      | _ :: _ :: _ =>
        some { ret := ("", some "Multiple load balancers found"),
               events := [.call (.DescribeLoadBalancers lbInput)],
               state := (s.1, e1) }
      | [desc0] =>
        some { ret := (aws.StringValue desc0.CanonicalHostedZoneNameID, none),
               events := [.call (.DescribeLoadBalancers lbInput)],
               state := (s.1, e1) }

/-- The request `crrsInput` that `UpdateDNS` builds from its arguments. -/
def crrsInput (elbHostname elbHostedZoneID domainName domainHostedZoneID : String) :
    ChangeResourceRecordSetsInput :=
  { ChangeBatch := some
      { Changes :=
          [{ Action := some "UPSERT",
             ResourceRecordSet := some
               { AliasTarget := some
                   { DNSName := some ("dualstack." ++ elbHostname),
                     EvaluateTargetHealth := some false,
                     HostedZoneId := some elbHostedZoneID },
                 Name := some (strings.TrimLeft domainName "."),
                 Type_ := some "A" } }],
        Comment := some "Kubernetes Update to Service" },
    HostedZoneId := some domainHostedZoneID }

/-- The method `AWSClientImpl.UpdateDNS` of `aws.go`; it returns the `error`. -/
def AWSClientImpl.UpdateDNS {ρ ε : Type} (dryRun : Bool) (c : AWSClientImpl ρ ε)
    (elbHostname elbHostedZoneID domainName domainHostedZoneID : String) (s : ρ × ε) :
    Outcome (Option String) (ρ × ε) :=
  let input := crrsInput elbHostname elbHostedZoneID domainName domainHostedZoneID
  if dryRun then
    { ret := none,
      events := [.log ("DRY RUN: We normally would have updated " ++ domainHostedZoneID ++
        " to point to " ++ elbHostedZoneID ++ " (" ++ elbHostname ++ ")")],
      state := s }
  else
    match c.route53.ChangeResourceRecordSets input s.1 with
    | ((_, err), r1) =>
      { ret := err, events := [.call (.ChangeResourceRecordSets input)], state := (r1, s.2) }

/-- The requests among the events, in order. -/
def providerCalls (events : List ProviderEvent) : List ProviderCall :=
  events.filterMap fun e =>
    match e with
    | .call c => some c
    | .log _ => none

/-- The lookup requests (`ListHostedZonesByName`, `DescribeLoadBalancers`)
among the events, in order. -/
def lookupQueries (events : List ProviderEvent) : List ProviderCall :=
  events.filterMap fun e =>
    match e with
    | .call (.ListHostedZonesByName input) => some (.ListHostedZonesByName input)
    | .call (.DescribeLoadBalancers input) => some (.DescribeLoadBalancers input)
    | _ => none

/-- The `ChangeResourceRecordSets` requests among the events, in order. -/
def changeRequests (events : List ProviderEvent) : List ProviderCall :=
  events.filterMap fun e =>
    match e with
    | .call (.ChangeResourceRecordSets input) => some (.ChangeResourceRecordSets input)
    | _ => none

/-! ## `kubernetes.go`: reading a service record -/

/-- The function `ServiceIngressHostname` of `kubernetes.go`. -/
def ServiceIngressHostname (service : Service) : String × Option String :=
  match service.Status.LoadBalancer.Ingress with
  | [] => ("", some "No ingress defined for ELB")
  | [ingress0] => (ingress0.Hostname, none)
  | _ :: _ :: _ => ("", some "Multiple ingress points found for ELB not supported")

/-- The function `ServiceDomainNames` of `kubernetes.go`. -/
def ServiceDomainNames (service : Service) : List String × Option String :=
  match service.ObjectMeta.Annotations.lookup "domainNames" with
  | none => ([], some ("Annotation 'domainNames' not set for " ++ service.ObjectMeta.Name))
  | some annotation => ((strings.Split annotation ',').map strings.TrimSpace, none)

/-! ## `processor.go`: the reconciliation pass -/

/-- The interface `KubernetesClient`, over a collaborator with state `κ`. -/
structure KubernetesClient (κ : Type) where
  GetDNSServices : String → String → κ → (List Service × Option String) × κ

/-- The interface `AWSClient`, over a collaborator with state `α`. -/
structure AWSClient (α : Type) where
  GetHostedZoneID : String → α → (String × Option String) × α
  GetLoadBalancerHostedZoneID : String → α → (String × Option String) × α
  UpdateDNS : String → String → String → String → α → Option String × α

/-- A call of an interface method, with its arguments. -/
inductive Call where
  | GetDNSServices (ns selector : String)
  | GetLoadBalancerHostedZoneID (hostname : String)
  | GetHostedZoneID (domain : String)
  | UpdateDNS (elbHostname elbHostedZoneID domainName domainHostedZoneID : String)
deriving DecidableEq, Repr

/-- What a pass does that is visible from outside: interface calls and log
lines. -/
inductive Event where
  | call (c : Call)
  | log (line : String)
deriving DecidableEq, Repr

/-- The body of the inner loop of `SyncRoute53DNSRecords` (lines 67-82) for one
domain name: the events it produces and the next state of the AWS client. -/
def syncDomain {α : Type} (awsClient : AWSClient α) (service : Service)
    (elbHostname elbHostedZoneID domainName : String) (a : α) : List Event × α :=
  let creating := Event.log ("Creating DNS for " ++ service.Name ++ " service (" ++
    service.ObjectMeta.Namespace ++ "): " ++ elbHostname ++ " -> " ++ domainName)
  match awsClient.GetHostedZoneID domainName a with
  | ((_, some err), a1) =>
    ([creating, .call (.GetHostedZoneID domainName),
      .log ("Could not find hosted zone: " ++ err)], a1)
  | ((domainHostedZoneID, none), a1) =>
    match awsClient.UpdateDNS elbHostname elbHostedZoneID domainName domainHostedZoneID a1 with
    | (some err, a2) =>
      ([creating, .call (.GetHostedZoneID domainName),
        .call (.UpdateDNS elbHostname elbHostedZoneID domainName domainHostedZoneID),
        .log ("Failed to update record set: " ++ err)], a2)
    | (none, a2) =>
      ([creating, .call (.GetHostedZoneID domainName),
        .call (.UpdateDNS elbHostname elbHostedZoneID domainName domainHostedZoneID),
        .log ("Created DNS record set: domainName=" ++ domainName ++ ", hostedZoneID=" ++
          domainHostedZoneID)], a2)

/-- The inner loop `for _, domainName := range domainNames` of
`SyncRoute53DNSRecords`. -/
def syncDomains {α : Type} (awsClient : AWSClient α) (service : Service)
    (elbHostname elbHostedZoneID : String) : List String → α → List Event × α
  | [], a => ([], a)
  | domainName :: rest, a =>
    let r := syncDomain awsClient service elbHostname elbHostedZoneID domainName a
    let r' := syncDomains awsClient service elbHostname elbHostedZoneID rest r.2
    (r.1 ++ r'.1, r'.2)

/-- The body of the outer loop of `SyncRoute53DNSRecords` (lines 49-82) for one
service. -/
def syncService {α : Type} (awsClient : AWSClient α) (service : Service) (a : α) :
    List Event × α :=
  match ServiceIngressHostname service with
  | (_, some err) =>
    ([.log ("Could not find ingress hostname for " ++ service.Name ++ ": " ++ err)], a)
  | (elbHostname, none) =>
    match ServiceDomainNames service with
    | (_, some err) => ([.log err], a)
    | (domainNames, none) =>
      match awsClient.GetLoadBalancerHostedZoneID elbHostname a with
      | ((_, some err), a1) =>
        ([.call (.GetLoadBalancerHostedZoneID elbHostname),
          .log ("Could not get zone ID: " ++ err)], a1)
      | ((elbHostedZoneID, none), a1) =>
        let r := syncDomains awsClient service elbHostname elbHostedZoneID domainNames a1
        (.call (.GetLoadBalancerHostedZoneID elbHostname) :: r.1, r.2)

/-- The outer loop `for _, service := range services` of
`SyncRoute53DNSRecords`. -/
def syncServices {α : Type} (awsClient : AWSClient α) : List Service → α → List Event × α
  | [], a => ([], a)
  | service :: rest, a =>
    let r := syncService awsClient service a
    let r' := syncServices awsClient rest r.2
    (r.1 ++ r'.1, r'.2)

/-- What a pass leaves behind: the returned `error`, the trace of events, and
the states of the two collaborators. -/
structure PassResult (κ α : Type) where
  err : Option String
  trace : List Event
  kube : κ
  aws : α

/-- The function `SyncRoute53DNSRecords` of `processor.go`. The package
variable `namespace` of `main.go` is the parameter `ns`; `k` and `a` are the
states of the two collaborators when the pass starts. -/
def SyncRoute53DNSRecords {κ α : Type} (ns : String)
    (kubernetesClient : KubernetesClient κ) (awsClient : AWSClient α) (k : κ) (a : α) :
    PassResult κ α :=
  let selector := "dns=route53"
  match kubernetesClient.GetDNSServices ns selector k with
  | ((_, some err), k1) =>
    { err := some ("Failed to list pods: " ++ err),
      trace := [.call (.GetDNSServices ns selector)],
      kube := k1, aws := a }
  | ((services, none), k1) =>
    let r := syncServices awsClient services a
    { err := none,
      trace := .call (.GetDNSServices ns selector) ::
        .log ("Found " ++ toString services.length ++ " DNS services with selector \"" ++
          selector ++ "\"") :: r.1,
      kube := k1, aws := r.2 }

/-- The state of a pass over an `AWSClientImpl`. The two providers are values
of one world `σ` (the fields `route53` and `elb` are interface values and may
reach the same service state): a method hands the world to the provider it
calls and keeps the world that provider returns. `events` are the events of
the methods so far, `changeErrors` what each `ChangeResourceRecordSets` request
so far returned, and `panicked` tells whether a method has panicked. -/
structure ImplState (σ : Type) where
  world : σ
  events : List ProviderEvent
  changeErrors : List (Option String)
  panicked : Bool

/-- The state in which a pass over an `AWSClientImpl` starts. -/
def ImplState.start {σ : Type} (w : σ) : ImplState σ :=
  { world := w, events := [], changeErrors := [], panicked := false }

/-- The value `*AWSClientImpl` behind the interface `AWSClient`, as
`WatchServices` passes it to `SyncRoute53DNSRecords`; `dryRun` is the package
variable of `main.go`. A method that panics ends the pass, since `processor.go`
recovers from nothing; the interface cannot end a pass, so the panic is recorded
in `panicked`, and from then on no method touches the providers: a pass that
ends with `panicked = true` died at its first panic, and a pass that ends with
`panicked = false` ran as the source runs it. -/
def AWSClientImpl.toAWSClient {σ : Type} (dryRun : Bool) (c : AWSClientImpl σ σ) :
    AWSClient (ImplState σ) where
  GetHostedZoneID := fun domain st =>
    if st.panicked then (("", some "panic"), st)
    else
      match c.GetHostedZoneID domain (st.world, st.world) with
      | some o => (o.ret, { st with world := o.state.1, events := st.events ++ o.events })
      | none => (("", some "panic"), { st with panicked := true })
  GetLoadBalancerHostedZoneID := fun hostname st =>
    if st.panicked then (("", some "panic"), st)
    else
      match c.GetLoadBalancerHostedZoneID hostname (st.world, st.world) with
      | some o => (o.ret, { st with world := o.state.2, events := st.events ++ o.events })
      | none => (("", some "panic"), { st with panicked := true })
  UpdateDNS := fun elbHostname elbHostedZoneID domainName domainHostedZoneID st =>
    if st.panicked then (some "panic", st)
    else
      match c.UpdateDNS dryRun elbHostname elbHostedZoneID domainName domainHostedZoneID
          (st.world, st.world) with
      | o =>
        (o.ret,
          { st with
            world := o.state.1,
            events := st.events ++ o.events,
            changeErrors :=
              if dryRun then st.changeErrors else st.changeErrors ++ [o.ret] })

/-! ## Projections of a trace -/

/-- The calls made to the AWS client, in order. -/
def awsCalls (trace : List Event) : List Call :=
  trace.filterMap fun e =>
    match e with
    | .call (.GetDNSServices _ _) => none
    | .call c => some c
    | .log _ => none

/-- The `UpdateDNS` calls, in order. -/
def updateCalls (trace : List Event) : List Call :=
  trace.filterMap fun e =>
    match e with
    | .call (.UpdateDNS h z d zd) => some (.UpdateDNS h z d zd)
    | _ => none

/-- The log lines, in order. -/
def logLines (trace : List Event) : List String :=
  trace.filterMap fun e =>
    match e with
    | .log line => some line
    | .call _ => none

/-! ## The calls a pass is expected to make, in the words of the specification

The answers of `GetLoadBalancerHostedZoneID` and `GetHostedZoneID` are given
here as functions `lb` and `hz` of their argument. -/

/-- The `UpdateDNS` call a domain `d` of a service receives: one call when
`GetHostedZoneID(d)` succeeds with `zd`, none otherwise. -/
def expectedUpdate (hz : String → String × Option String) (h z d : String) : Option Call :=
  match hz d with
  | (zd, none) => some (.UpdateDNS h z d zd)
  | (_, some _) => none

/-- The AWS calls for one domain: the zone lookup, then the update when the
lookup succeeded. -/
def expectedDomainCalls (hz : String → String × Option String) (h z d : String) : List Call :=
  .GetHostedZoneID d :: (expectedUpdate hz h z d).toList

/-- The `UpdateDNS` calls for one service: a service with exactly one ingress
endpoint (hostname `h`) that carries the `domainNames` annotation and whose
`GetLoadBalancerHostedZoneID(h)` succeeds with `z` receives, for each of its
domain names `d` in annotation order whose `GetHostedZoneID(d)` succeeds with
`zd`, the call `UpdateDNS(h, z, d, zd)`; any other service receives none. -/
def expectedServiceUpdates (lb hz : String → String × Option String) (service : Service) :
    List Call :=
  match service.Status.LoadBalancer.Ingress,
      service.ObjectMeta.Annotations.lookup "domainNames" with
  | [ingress], some annotation =>
    match lb ingress.Hostname with
    | (z, none) =>
      ((strings.Split annotation ',').map strings.TrimSpace).filterMap
        (expectedUpdate hz ingress.Hostname z)
    | (_, some _) => []
  | _, _ => []

/-- The `UpdateDNS` calls of a pass over a service list, service by service in
listing order. -/
def expectedUpdateCalls (lb hz : String → String × Option String) (services : List Service) :
    List Call :=
  services.flatMap (expectedServiceUpdates lb hz)

/-- The AWS calls for one service: the load-balancer lookup when the service
has one ingress endpoint and the annotation, then the calls of its domains when
the lookup succeeded. -/
def expectedServiceCalls (lb hz : String → String × Option String) (service : Service) :
    List Call :=
  match service.Status.LoadBalancer.Ingress,
      service.ObjectMeta.Annotations.lookup "domainNames" with
  | [ingress], some annotation =>
    .GetLoadBalancerHostedZoneID ingress.Hostname ::
      match lb ingress.Hostname with
      | (z, none) =>
        ((strings.Split annotation ',').map strings.TrimSpace).flatMap
          (expectedDomainCalls hz ingress.Hostname z)
      | (_, some _) => []
  | _, _ => []

/-- The calls made to the cluster client, in order. -/
def kubeCalls (trace : List Event) : List Call :=
  trace.filterMap fun e =>
    match e with
    | .call (.GetDNSServices ns selector) => some (.GetDNSServices ns selector)
    | _ => none

/-- Whether a call is a `GetLoadBalancerHostedZoneID` call. -/
def Call.isGetLoadBalancerHostedZoneID : Call → Bool
  | .GetLoadBalancerHostedZoneID _ => true
  | _ => false

/-! ## Test doubles, after `KubernetesClientDummy` and `AWSClientDummy` of
`processor_test.go` -/

/-- A cluster client that answers every listing with `output` and `err`. -/
def KubernetesClientDummy (output : List Service) (err : Option String) :
    KubernetesClient Unit where
  GetDNSServices := fun _ _ k => ((output, err), k)

/-- An AWS client whose answers are functions of the arguments. -/
def AWSClientDummy (lb hz : String → String × Option String)
    (upd : String → String → String → String → Option String) : AWSClient Unit where
  GetHostedZoneID := fun d a => (hz d, a)
  GetLoadBalancerHostedZoneID := fun h a => (lb h, a)
  UpdateDNS := fun h z d zd a => (upd h z d zd, a)

/-- A cluster client whose state is the list of services of the cluster; every
listing succeeds with that list. -/
def KubernetesClientCluster : KubernetesClient (List Service) where
  GetDNSServices := fun _ _ k => ((k, none), k)

/-- The double `DummyRoute53Client` of `aws_test.go`: fixed answers, no
state. -/
def DummyRoute53Client (listOutput : Option ListHostedZonesByNameOutput)
    (listError changeError : Option String) : Route53Client Unit where
  ListHostedZonesByName := fun _ r => ((listOutput, listError), r)
  ChangeResourceRecordSets := fun _ r => ((none, changeError), r)

/-- The double `DummyELBClient` of `aws_test.go`: fixed answers, no state. -/
def DummyELBClient (describeOutput : Option DescribeLoadBalancersOutput)
    (describeError : Option String) : ELBClient Unit where
  DescribeLoadBalancers := fun _ e => ((describeOutput, describeError), e)

/-- A Route 53 provider with memory: it lists `zones` until a change has been
submitted, and fails every listing after that; every change succeeds. -/
def Route53ClientLocking (zones : ListHostedZonesByNameOutput) : Route53Client Bool where
  ListHostedZonesByName := fun _ changed =>
    if changed then ((none, some "locked"), changed) else ((some zones, none), changed)
  ChangeResourceRecordSets := fun _ _ => ((some {}, none), true)

/-- A Route 53 provider that always lists `zones` and accepts every change; the
world, shared with the load-balancer provider, records that a change was
submitted. -/
def Route53ClientMarking (zones : ListHostedZonesByNameOutput) : Route53Client Bool where
  ListHostedZonesByName := fun _ changed => ((some zones, none), changed)
  ChangeResourceRecordSets := fun _ _ => ((some {}, none), true)

/-- A load-balancer provider that always answers with `output`. -/
def ELBClientSteady (output : DescribeLoadBalancersOutput) : ELBClient Bool where
  DescribeLoadBalancers := fun _ changed => ((some output, none), changed)

/-- A load-balancer provider that answers with `output` until a change has been
submitted in the shared world, and is throttled after that. -/
def ELBClientThrottled (output : DescribeLoadBalancersOutput) : ELBClient Bool where
  DescribeLoadBalancers := fun _ changed =>
    if changed then ((none, some "Throttling"), changed) else ((some output, none), changed)

/-- The service of the end-to-end scenarios of `processor_test.go`, with the
given ingress hostnames and annotations. -/
def testService (hostnames : List String) (annotations : List (String × String)) : Service where
  ObjectMeta := { Name := "service", Namespace := "", Annotations := annotations }
  Status := { LoadBalancer := { Ingress := hostnames.map fun h => { IP := "", Hostname := h } } }

/-! ## Lemmas on the library functions -/

theorem splitChars_length (sep : Char) (l : List Char) :
    (strings.splitChars sep l).length = l.count sep + 1 := by
  induction l with
  | nil => simp [strings.splitChars]
  | cons c cs ih =>
    by_cases h : c = sep
    · subst h
      simp [strings.splitChars, ih]
    · have hne : (c == sep) = false := by simpa using h
      cases hs : strings.splitChars sep cs with
      | nil => simp [hs] at ih
      | cons p ps =>
        rw [hs] at ih
        simp only [List.length_cons] at ih
        simp [strings.splitChars, h, hs, List.count_cons, hne]
        omega

theorem hasSuffix_iff (s suffix : String) :
    strings.HasSuffix s suffix = true ↔ suffix.data <:+ s.data := by
  simp [strings.HasSuffix]

/-! ## The zone matcher -/

/-- What the loop of `findMostSpecificZoneForDomain` computes: either no zone
with a non-empty name matches, or the loop stops on the first zone of the list
among the matching zones of maximal length. -/
theorem zoneLoop_spec (d : String) (zones : List HostedZone) :
    ((zones.foldl (zoneStep d) (none, 0)) = (none, 0) ∧
      ∀ z ∈ zones, strings.HasSuffix d (aws.StringValue z.Name) = true →
        len (aws.StringValue z.Name) = 0) ∨
    (∃ pre z post, zones = pre ++ z :: post ∧
      (zones.foldl (zoneStep d) (none, 0)) = (some z, len (aws.StringValue z.Name)) ∧
      strings.HasSuffix d (aws.StringValue z.Name) = true ∧
      0 < len (aws.StringValue z.Name) ∧
      (∀ y ∈ pre, strings.HasSuffix d (aws.StringValue y.Name) = true →
        len (aws.StringValue y.Name) < len (aws.StringValue z.Name)) ∧
      (∀ y ∈ post, strings.HasSuffix d (aws.StringValue y.Name) = true →
        len (aws.StringValue y.Name) ≤ len (aws.StringValue z.Name))) := by
  induction zones using List.reverseRecOn with
  | nil => left; simp
  | append_singleton init x ih =>
    rw [List.foldl_append]
    simp only [List.foldl_cons, List.foldl_nil]
    rcases ih with ⟨h0, hall⟩ | ⟨pre, z, post, hz, hr, hm, hpos, hpre, hpost⟩
    · rw [h0]
      by_cases hx : strings.HasSuffix d (aws.StringValue x.Name) = true ∧
          0 < len (aws.StringValue x.Name)
      · right
        refine ⟨init, x, [], rfl, ?_, hx.1, hx.2, ?_, by simp⟩
        · simp [zoneStep, hx.1, hx.2]
        · intro y hy hmy
          rw [hall y hy hmy]
          exact hx.2
      · left
        constructor
        · simp only [zoneStep, Bool.and_eq_true, decide_eq_true_eq]
          rw [if_neg hx]
        · intro y hy hmy
          rcases List.mem_append.1 hy with hy | hy
          · exact hall y hy hmy
          · simp only [List.mem_singleton] at hy
            subst hy
            by_contra hne
            exact hx ⟨hmy, Nat.pos_of_ne_zero hne⟩
    · rw [hr]
      right
      by_cases hx : strings.HasSuffix d (aws.StringValue x.Name) = true ∧
          len (aws.StringValue z.Name) < len (aws.StringValue x.Name)
      · refine ⟨init, x, [], rfl, ?_, hx.1, by omega, ?_, by simp⟩
        · simp [zoneStep, hx.1, hx.2]
        · intro y hy hmy
          rw [hz] at hy
          rcases List.mem_append.1 hy with hy | hy
          · exact lt_trans (hpre y hy hmy) hx.2
          · rcases List.mem_cons.1 hy with hy | hy
            · subst hy; exact hx.2
            · exact lt_of_le_of_lt (hpost y hy hmy) hx.2
      · refine ⟨pre, z, post ++ [x], by simp [hz], ?_, hm, hpos, hpre, ?_⟩
        · simp only [zoneStep, Bool.and_eq_true, decide_eq_true_eq]
          rw [if_neg hx]
        · intro y hy hmy
          rcases List.mem_append.1 hy with hy | hy
          · exact hpost y hy hmy
          · simp only [List.mem_singleton] at hy
            subst hy
            by_contra hlt
            exact hx ⟨hmy, by omega⟩

/-- The normalised domain exists exactly for a non-empty domain. -/
theorem domainWithTrailingDot_isSome (domain : String) (hne : domain ≠ "") :
    ∃ d, domainWithTrailingDot domain = some d := by
  unfold domainWithTrailingDot
  cases h : domain.data.getLast? with
  | none =>
    exfalso
    apply hne
    have hnil : domain.data = [] := by simpa using h
    cases domain
    simp_all
  | some c =>
    by_cases hc : c = '.'
    · exact ⟨domain, by simp [hc]⟩
    · exact ⟨domain ++ ".", by simp [hc]⟩

/-- C7 (as stated) fails: the empty zone name is a suffix of every normalised
domain, yet a list holding only a zone with the empty name makes
`findMostSpecificZoneForDomain` return the error "No zone matches domain".
It also fails on the empty domain, which has no normalisation in the code: the
call panics although the zone name `.` is a suffix of the empty domain followed
by a dot. -/
theorem C7_counterexample :
    domainWithTrailingDot "test.demo.com" = some "test.demo.com." ∧
    (∃ z ∈ [(⟨some "", some "/hostedzone/EMPTY"⟩ : HostedZone)],
      strings.HasSuffix "test.demo.com." (aws.StringValue z.Name) = true) ∧
    findMostSpecificZoneForDomain "test.demo.com"
        [(⟨some "", some "/hostedzone/EMPTY"⟩ : HostedZone)] =
      some (none, some "No zone matches domain test.demo.com.") ∧
    strings.HasSuffix ("" ++ ".") (aws.StringValue (some ".")) = true ∧
    findMostSpecificZoneForDomain "" [⟨some ".", some "/hostedzone/ROOT"⟩] = none := by
  refine ⟨by decide, ⟨_, List.mem_singleton.2 rfl, by decide⟩, by decide, by decide, by decide⟩

/-- C7 (amended): when at least one zone with a non-empty name is a suffix of
the trailing-dot-normalised domain `d`, `findMostSpecificZoneForDomain`
succeeds and returns a zone of the list whose name is a suffix of `d` and is at
least as long as the name of every zone of the list that is a suffix of `d`. -/
theorem findMostSpecificZoneForDomain_longest (domain d : String) (zones : List HostedZone)
    (hd : domainWithTrailingDot domain = some d)
    (hex : ∃ z ∈ zones, strings.HasSuffix d (aws.StringValue z.Name) = true ∧
      0 < len (aws.StringValue z.Name)) :
    ∃ z, findMostSpecificZoneForDomain domain zones = some (some z, none) ∧
      z ∈ zones ∧
      strings.HasSuffix d (aws.StringValue z.Name) = true ∧
      ∀ y ∈ zones, strings.HasSuffix d (aws.StringValue y.Name) = true →
        len (aws.StringValue y.Name) ≤ len (aws.StringValue z.Name) := by
  obtain ⟨z0, hz0, hm0, hp0⟩ := hex
  have hlen : ¬ zones.length < 1 := by
    have := List.length_pos_of_mem hz0
    omega
  rcases zoneLoop_spec d zones with ⟨_, hall⟩ | ⟨pre, z, post, hz, hr, hm, _, hpre, hpost⟩
  · have := hall z0 hz0 hm0
    omega
  · refine ⟨z, ?_, by simp [hz], hm, ?_⟩
    · simp [findMostSpecificZoneForDomain, hd, hlen, hr]
    · intro y hy hmy
      rw [hz] at hy
      rcases List.mem_append.1 hy with hy | hy
      · exact le_of_lt (hpre y hy hmy)
      · rcases List.mem_cons.1 hy with hy | hy
        · subst hy; exact le_refl _
        · exact hpost y hy hmy

/-- C7 witness: the zones `demo.com.` and `sub.demo.com.` of the test suite;
`test.sub.demo.com` selects `sub.demo.com.` and `test.demo.com` selects
`demo.com.`. -/
theorem findMostSpecificZoneForDomain_longest_witness :
    (∃ z, findMostSpecificZoneForDomain "test.sub.demo.com"
        [⟨some "demo.com.", some "/hostedzone/D"⟩, ⟨some "sub.demo.com.", some "/hostedzone/S"⟩] =
        some (some z, none) ∧
      z ∈ [(⟨some "demo.com.", some "/hostedzone/D"⟩ : HostedZone),
        ⟨some "sub.demo.com.", some "/hostedzone/S"⟩] ∧
      strings.HasSuffix "test.sub.demo.com." (aws.StringValue z.Name) = true ∧
      ∀ y ∈ [(⟨some "demo.com.", some "/hostedzone/D"⟩ : HostedZone),
          ⟨some "sub.demo.com.", some "/hostedzone/S"⟩],
        strings.HasSuffix "test.sub.demo.com." (aws.StringValue y.Name) = true →
        len (aws.StringValue y.Name) ≤ len (aws.StringValue z.Name)) ∧
    findMostSpecificZoneForDomain "test.sub.demo.com"
        [⟨some "demo.com.", some "/hostedzone/D"⟩, ⟨some "sub.demo.com.", some "/hostedzone/S"⟩] =
      some (some ⟨some "sub.demo.com.", some "/hostedzone/S"⟩, none) ∧
    findMostSpecificZoneForDomain "test.demo.com"
        [⟨some "demo.com.", some "/hostedzone/D"⟩, ⟨some "sub.demo.com.", some "/hostedzone/S"⟩] =
      some (some ⟨some "demo.com.", some "/hostedzone/D"⟩, none) :=
  ⟨findMostSpecificZoneForDomain_longest "test.sub.demo.com" "test.sub.demo.com."
      [⟨some "demo.com.", some "/hostedzone/D"⟩, ⟨some "sub.demo.com.", some "/hostedzone/S"⟩]
      (by decide)
      ⟨⟨some "demo.com.", some "/hostedzone/D"⟩, by decide, by decide, by decide⟩,
    by decide, by decide⟩

/-- C8 (as stated) fails on the empty domain: `domainWithTrailingDot` slices
the last byte of its argument before the zone list is looked at, so the call
panics instead of returning an error, with an empty and with a non-empty zone
list. -/
theorem C8_counterexample :
    findMostSpecificZoneForDomain "" [] = none ∧
    findMostSpecificZoneForDomain "" [⟨some "demo.com.", some "/hostedzone/D"⟩] = none := by
  constructor <;> decide

/-- C8 (amended): for every non-empty domain, with `d` its trailing-dot
normalisation, `findMostSpecificZoneForDomain` returns the error
"No zone found for d" when the zone list is empty, and the error
"No zone matches domain d" when the list is non-empty and no zone name is a
suffix of `d`. -/
theorem findMostSpecificZoneForDomain_errors (domain : String) (zones : List HostedZone)
    (hne : domain ≠ "") :
    ∃ d, domainWithTrailingDot domain = some d ∧
      (zones = [] →
        findMostSpecificZoneForDomain domain zones =
          some (none, some ("No zone found for " ++ d))) ∧
      (zones ≠ [] →
        (∀ z ∈ zones, strings.HasSuffix d (aws.StringValue z.Name) = false) →
        findMostSpecificZoneForDomain domain zones =
          some (none, some ("No zone matches domain " ++ d))) := by
  obtain ⟨d, hd⟩ := domainWithTrailingDot_isSome domain hne
  refine ⟨d, hd, ?_, ?_⟩
  · intro hz
    simp [findMostSpecificZoneForDomain, hd, hz]
  · intro hz hall
    have hlen : ¬ zones.length < 1 := by
      have := List.length_pos.2 hz
      omega
    rcases zoneLoop_spec d zones with ⟨h0, _⟩ | ⟨pre, z, post, hzs, _, hm, _⟩
    · simp [findMostSpecificZoneForDomain, hd, hlen, h0]
    · have := hall z (by simp [hzs])
      rw [hm] at this
      exact absurd this (by simp)

/-- C8 witness: the domain `valid.domain.com` against the zone `demo.com.`, and
the domain `.demo.com` against no zone. -/
theorem findMostSpecificZoneForDomain_errors_witness :
    findMostSpecificZoneForDomain "valid.domain.com"
        [⟨some "demo.com.", some "/hostedzone/D"⟩] =
      some (none, some "No zone matches domain valid.domain.com.") ∧
    findMostSpecificZoneForDomain ".demo.com" [] =
      some (none, some "No zone found for .demo.com.") := by
  constructor
  · obtain ⟨d, hd, _, hmatch⟩ := findMostSpecificZoneForDomain_errors "valid.domain.com"
      [⟨some "demo.com.", some "/hostedzone/D"⟩] (by decide)
    have hnorm : domainWithTrailingDot "valid.domain.com" = some "valid.domain.com." := by
      decide
    rw [hnorm] at hd
    cases hd
    exact hmatch (by decide) (by decide)
  · obtain ⟨d, hd, hempty, _⟩ := findMostSpecificZoneForDomain_errors ".demo.com" []
      (by decide)
    have hnorm : domainWithTrailingDot ".demo.com" = some ".demo.com." := by decide
    rw [hnorm] at hd
    cases hd
    exact hempty rfl

/-- C9 (as stated) fails: two zones with the empty name both match with the
same maximal length 0, and `findMostSpecificZoneForDomain` returns an error
instead of the first of them. It also fails on the empty domain: two zones
named `.` both match the empty domain followed by a dot, and the call panics. -/
theorem C9_counterexample :
    (∀ z ∈ [(⟨some "", some "/hostedzone/A"⟩ : HostedZone), ⟨some "", some "/hostedzone/B"⟩],
      strings.HasSuffix "test.demo.com." (aws.StringValue z.Name) = true ∧
      len (aws.StringValue z.Name) = 0) ∧
    findMostSpecificZoneForDomain "test.demo.com"
        [⟨some "", some "/hostedzone/A"⟩, ⟨some "", some "/hostedzone/B"⟩] =
      some (none, some "No zone matches domain test.demo.com.") ∧
    findMostSpecificZoneForDomain ""
        [⟨some ".", some "/hostedzone/A"⟩, ⟨some ".", some "/hostedzone/B"⟩] = none := by
  refine ⟨by decide, by decide, by decide⟩

/-- C9 (amended): when a zone with a non-empty name matches the normalised
domain `d`, the zone returned by `findMostSpecificZoneForDomain` is the first
zone, in list order, among the matching zones of maximal name length: it
matches, no matching zone has a longer name, and no zone before it in the list
matches with a name of the same length. -/
theorem findMostSpecificZoneForDomain_first (domain d : String) (zones : List HostedZone)
    (hd : domainWithTrailingDot domain = some d)
    (hex : ∃ z ∈ zones, strings.HasSuffix d (aws.StringValue z.Name) = true ∧
      0 < len (aws.StringValue z.Name)) :
    ∃ pre z post, zones = pre ++ z :: post ∧
      findMostSpecificZoneForDomain domain zones = some (some z, none) ∧
      strings.HasSuffix d (aws.StringValue z.Name) = true ∧
      (∀ y ∈ zones, strings.HasSuffix d (aws.StringValue y.Name) = true →
        len (aws.StringValue y.Name) ≤ len (aws.StringValue z.Name)) ∧
      (∀ y ∈ pre, ¬ (strings.HasSuffix d (aws.StringValue y.Name) = true ∧
        len (aws.StringValue y.Name) = len (aws.StringValue z.Name))) := by
  obtain ⟨z0, hz0, hm0, hp0⟩ := hex
  have hlen : ¬ zones.length < 1 := by
    have := List.length_pos_of_mem hz0
    omega
  rcases zoneLoop_spec d zones with ⟨_, hall⟩ | ⟨pre, z, post, hz, hr, hm, _, hpre, hpost⟩
  · have := hall z0 hz0 hm0
    omega
  · refine ⟨pre, z, post, hz, ?_, hm, ?_, ?_⟩
    · simp [findMostSpecificZoneForDomain, hd, hlen, hr]
    · intro y hy hmy
      rw [hz] at hy
      rcases List.mem_append.1 hy with hy | hy
      · exact le_of_lt (hpre y hy hmy)
      · rcases List.mem_cons.1 hy with hy | hy
        · subst hy; exact le_refl _
        · exact hpost y hy hmy
    · rintro y hy ⟨hmy, hly⟩
      have := hpre y hy hmy
      omega

/-- C9 witness: two zones named `demo.com.` with different identifiers, after
a shorter match; the first of the two is returned. -/
theorem findMostSpecificZoneForDomain_first_witness :
    (∃ pre z post,
      [(⟨some "com.", some "/hostedzone/C"⟩ : HostedZone),
        ⟨some "demo.com.", some "/hostedzone/A"⟩,
        ⟨some "demo.com.", some "/hostedzone/B"⟩] = pre ++ z :: post ∧
      findMostSpecificZoneForDomain "test.demo.com"
        [⟨some "com.", some "/hostedzone/C"⟩, ⟨some "demo.com.", some "/hostedzone/A"⟩,
          ⟨some "demo.com.", some "/hostedzone/B"⟩] = some (some z, none) ∧
      strings.HasSuffix "test.demo.com." (aws.StringValue z.Name) = true ∧
      (∀ y ∈ [(⟨some "com.", some "/hostedzone/C"⟩ : HostedZone),
          ⟨some "demo.com.", some "/hostedzone/A"⟩,
          ⟨some "demo.com.", some "/hostedzone/B"⟩],
        strings.HasSuffix "test.demo.com." (aws.StringValue y.Name) = true →
        len (aws.StringValue y.Name) ≤ len (aws.StringValue z.Name)) ∧
      (∀ y ∈ pre, ¬ (strings.HasSuffix "test.demo.com." (aws.StringValue y.Name) = true ∧
        len (aws.StringValue y.Name) = len (aws.StringValue z.Name)))) ∧
    findMostSpecificZoneForDomain "test.demo.com"
        [⟨some "com.", some "/hostedzone/C"⟩, ⟨some "demo.com.", some "/hostedzone/A"⟩,
          ⟨some "demo.com.", some "/hostedzone/B"⟩] =
      some (some ⟨some "demo.com.", some "/hostedzone/A"⟩, none) :=
  ⟨findMostSpecificZoneForDomain_first "test.demo.com" "test.demo.com."
      [⟨some "com.", some "/hostedzone/C"⟩, ⟨some "demo.com.", some "/hostedzone/A"⟩,
        ⟨some "demo.com.", some "/hostedzone/B"⟩]
      (by decide)
      ⟨⟨some "com.", some "/hostedzone/C"⟩, by decide, by decide, by decide⟩,
    by decide⟩

/-! ## The hostname parser -/

/-- C10: `loadBalancerNameFromHostname` fails if and only if the hostname
contains no `-`, and the error it then returns, with the empty name, is
"hostname is not a valid ELB hostname". -/
theorem loadBalancerNameFromHostname_fails_iff (hostname : String) :
    ((loadBalancerNameFromHostname hostname).2 ≠ none ↔ '-' ∉ hostname.data) ∧
    ((loadBalancerNameFromHostname hostname).2 ≠ none ↔
      loadBalancerNameFromHostname hostname =
        ("", some (hostname ++ " is not a valid ELB hostname"))) := by
  have hlen := splitChars_length '-' hostname.data
  unfold loadBalancerNameFromHostname strings.Split
  cases hs : strings.splitChars '-' hostname.data with
  | nil => simp [hs] at hlen
  | cons p ps =>
    cases ps with
    | nil =>
      rw [hs] at hlen
      have hc : hostname.data.count '-' = 0 := by simpa using hlen.symm
      have : '-' ∉ hostname.data := List.count_eq_zero.1 hc
      simp [this]
    | cons q qs =>
      rw [hs] at hlen
      have hc : 0 < hostname.data.count '-' := by
        simp only [List.length_cons] at hlen
        omega
      have : '-' ∈ hostname.data := List.count_pos_iff.1 hc
      by_cases hi : String.mk p = "internal" <;> simp [this, hi]

/-! ## The reconciliation pass -/

theorem awsCalls_append (t u : List Event) : awsCalls (t ++ u) = awsCalls t ++ awsCalls u := by
  simp [awsCalls, List.filterMap_append]

theorem updateCalls_append (t u : List Event) :
    updateCalls (t ++ u) = updateCalls t ++ updateCalls u := by
  simp [updateCalls, List.filterMap_append]

/-- The calls of one iteration of the inner loop, when the answer of
`GetHostedZoneID` depends only on its argument. -/
theorem syncDomain_calls {α : Type} (awsClient : AWSClient α)
    (hz : String → String × Option String)
    (hhz : ∀ d a, (awsClient.GetHostedZoneID d a).1 = hz d)
    (service : Service) (h z d : String) (a : α) :
    awsCalls (syncDomain awsClient service h z d a).1 = expectedDomainCalls hz h z d ∧
    updateCalls (syncDomain awsClient service h z d a).1 = (expectedUpdate hz h z d).toList := by
  have hq := hhz d a
  unfold syncDomain expectedDomainCalls expectedUpdate
  rcases hg : awsClient.GetHostedZoneID d a with ⟨⟨zd, e⟩, a1⟩
  rw [hg] at hq
  simp only at hq
  rw [← hq]
  cases e with
  | some err => simp [awsCalls, updateCalls]
  | none =>
    rcases hu : awsClient.UpdateDNS h z d zd a1 with ⟨_ | err, a2⟩ <;>
      simp [awsCalls, updateCalls, hu]

/-- The calls of the inner loop. -/
theorem syncDomains_calls {α : Type} (awsClient : AWSClient α)
    (hz : String → String × Option String)
    (hhz : ∀ d a, (awsClient.GetHostedZoneID d a).1 = hz d)
    (service : Service) (h z : String) (domainNames : List String) (a : α) :
    awsCalls (syncDomains awsClient service h z domainNames a).1 =
      domainNames.flatMap (expectedDomainCalls hz h z) ∧
    updateCalls (syncDomains awsClient service h z domainNames a).1 =
      domainNames.filterMap (expectedUpdate hz h z) := by
  induction domainNames generalizing a with
  | nil => simp [syncDomains, awsCalls, updateCalls]
  | cons d ds ih =>
    have h1 := syncDomain_calls awsClient hz hhz service h z d a
    have h2 := ih (syncDomain awsClient service h z d a).2
    simp only [syncDomains, awsCalls_append, updateCalls_append, h1.1, h1.2, h2.1, h2.2,
      List.flatMap_cons, List.filterMap_cons]
    cases expectedUpdate hz h z d <;> simp

/-- The calls of one iteration of the outer loop, when the answers of the two
lookups depend only on their argument. -/
theorem syncService_calls {α : Type} (awsClient : AWSClient α)
    (lb hz : String → String × Option String)
    (hlb : ∀ h a, (awsClient.GetLoadBalancerHostedZoneID h a).1 = lb h)
    (hhz : ∀ d a, (awsClient.GetHostedZoneID d a).1 = hz d)
    (service : Service) (a : α) :
    awsCalls (syncService awsClient service a).1 = expectedServiceCalls lb hz service ∧
    updateCalls (syncService awsClient service a).1 = expectedServiceUpdates lb hz service := by
  unfold syncService expectedServiceCalls expectedServiceUpdates ServiceIngressHostname
    ServiceDomainNames
  rcases hI : service.Status.LoadBalancer.Ingress with _ | ⟨i, _ | ⟨j, r⟩⟩
  · simp [awsCalls, updateCalls]
  · cases hA : service.ObjectMeta.Annotations.lookup "domainNames" with
    | none => simp [awsCalls, updateCalls]
    | some annotation =>
      have hq := hlb i.Hostname a
      rcases hg : awsClient.GetLoadBalancerHostedZoneID i.Hostname a with ⟨⟨z, e⟩, a1⟩
      rw [hg] at hq
      simp only at hq
      simp only [hg, ← hq]
      cases e with
      | some err => simp [awsCalls, updateCalls]
      | none =>
        have hd := syncDomains_calls awsClient hz hhz service i.Hostname z
          ((strings.Split annotation ',').map strings.TrimSpace) a1
        simp only [awsCalls, updateCalls] at hd
        simp [awsCalls, updateCalls, hd.1, hd.2]
  · simp [awsCalls, updateCalls]

/-- The calls of the outer loop. -/
theorem syncServices_calls {α : Type} (awsClient : AWSClient α)
    (lb hz : String → String × Option String)
    (hlb : ∀ h a, (awsClient.GetLoadBalancerHostedZoneID h a).1 = lb h)
    (hhz : ∀ d a, (awsClient.GetHostedZoneID d a).1 = hz d)
    (services : List Service) (a : α) :
    awsCalls (syncServices awsClient services a).1 =
      services.flatMap (expectedServiceCalls lb hz) ∧
    updateCalls (syncServices awsClient services a).1 = expectedUpdateCalls lb hz services := by
  induction services generalizing a with
  | nil => simp [syncServices, awsCalls, updateCalls, expectedUpdateCalls]
  | cons s ss ih =>
    have h1 := syncService_calls awsClient lb hz hlb hhz s a
    have h2 := ih (syncService awsClient s a).2
    simp only [expectedUpdateCalls] at h2 ⊢
    simp [syncServices, awsCalls_append, updateCalls_append, h1.1, h1.2, h2.1, h2.2]

/-- The calls of a pass whose listing succeeded. -/
theorem SyncRoute53DNSRecords_calls {κ α : Type} (ns : String)
    (kubernetesClient : KubernetesClient κ) (awsClient : AWSClient α) (k k1 : κ) (a : α)
    (services : List Service) (lb hz : String → String × Option String)
    (hlist : kubernetesClient.GetDNSServices ns "dns=route53" k = ((services, none), k1))
    (hlb : ∀ h a, (awsClient.GetLoadBalancerHostedZoneID h a).1 = lb h)
    (hhz : ∀ d a, (awsClient.GetHostedZoneID d a).1 = hz d) :
    awsCalls (SyncRoute53DNSRecords ns kubernetesClient awsClient k a).trace =
      services.flatMap (expectedServiceCalls lb hz) ∧
    updateCalls (SyncRoute53DNSRecords ns kubernetesClient awsClient k a).trace =
      expectedUpdateCalls lb hz services ∧
    (SyncRoute53DNSRecords ns kubernetesClient awsClient k a).err = none := by
  have hs := syncServices_calls awsClient lb hz hlb hhz services a
  simp only [awsCalls, updateCalls] at hs
  simp [SyncRoute53DNSRecords, hlist, awsCalls, updateCalls, hs.1, hs.2]

/-- C1: when `GetDNSServices` succeeds with a service list, and the answers of
the two lookups of the AWS client depend only on their argument, the sequence
of `UpdateDNS` calls of `SyncRoute53DNSRecords` is exactly the expected one: for
each service in listing order with exactly one ingress endpoint `h`, the
`domainNames` annotation and a successful `GetLoadBalancerHostedZoneID(h) = z`,
and for each of its domain names `d` in annotation order with a successful
`GetHostedZoneID(d) = zd`, one call `UpdateDNS(h, z, d, zd)`; and the pass
returns nil. -/
theorem SyncRoute53DNSRecords_updateCalls {κ α : Type} (ns : String)
    (kubernetesClient : KubernetesClient κ) (awsClient : AWSClient α) (k k1 : κ) (a : α)
    (services : List Service) (lb hz : String → String × Option String)
    (hlist : kubernetesClient.GetDNSServices ns "dns=route53" k = ((services, none), k1))
    (hlb : ∀ h a, (awsClient.GetLoadBalancerHostedZoneID h a).1 = lb h)
    (hhz : ∀ d a, (awsClient.GetHostedZoneID d a).1 = hz d) :
    updateCalls (SyncRoute53DNSRecords ns kubernetesClient awsClient k a).trace =
      expectedUpdateCalls lb hz services ∧
    (SyncRoute53DNSRecords ns kubernetesClient awsClient k a).err = none :=
  (SyncRoute53DNSRecords_calls ns kubernetesClient awsClient k k1 a services lb hz
    hlist hlb hhz).2

/-- C1 witness: the scenario "Successful update" of `processor_test.go`: one
service with one ingress hostname and one resolvable domain yields exactly one
`UpdateDNS` call, and the pass returns nil. -/
theorem SyncRoute53DNSRecords_updateCalls_witness :
    updateCalls (SyncRoute53DNSRecords ""
        (KubernetesClientDummy
          [testService ["elb.hostname.amazonaws.com"] [("domainNames", "some.domain.com")]] none)
        (AWSClientDummy (fun _ => ("ELBZONEID", none)) (fun _ => ("DOMAINZONEID", none))
          (fun _ _ _ _ => none)) () ()).trace =
      [.UpdateDNS "elb.hostname.amazonaws.com" "ELBZONEID" "some.domain.com" "DOMAINZONEID"] ∧
    (SyncRoute53DNSRecords ""
        (KubernetesClientDummy
          [testService ["elb.hostname.amazonaws.com"] [("domainNames", "some.domain.com")]] none)
        (AWSClientDummy (fun _ => ("ELBZONEID", none)) (fun _ => ("DOMAINZONEID", none))
          (fun _ _ _ _ => none)) () ()).err = none :=
  ⟨(SyncRoute53DNSRecords_updateCalls ""
      (KubernetesClientDummy
        [testService ["elb.hostname.amazonaws.com"] [("domainNames", "some.domain.com")]] none)
      (AWSClientDummy (fun _ => ("ELBZONEID", none)) (fun _ => ("DOMAINZONEID", none))
        (fun _ _ _ _ => none)) () () ()
      [testService ["elb.hostname.amazonaws.com"] [("domainNames", "some.domain.com")]]
      (fun _ => ("ELBZONEID", none)) (fun _ => ("DOMAINZONEID", none))
      rfl (fun _ _ => rfl) (fun _ _ => rfl)).1.trans (by decide),
    (SyncRoute53DNSRecords_updateCalls ""
      (KubernetesClientDummy
        [testService ["elb.hostname.amazonaws.com"] [("domainNames", "some.domain.com")]] none)
      (AWSClientDummy (fun _ => ("ELBZONEID", none)) (fun _ => ("DOMAINZONEID", none))
        (fun _ _ _ _ => none)) () () ()
      [testService ["elb.hostname.amazonaws.com"] [("domainNames", "some.domain.com")]]
      (fun _ => ("ELBZONEID", none)) (fun _ => ("DOMAINZONEID", none))
      rfl (fun _ _ => rfl) (fun _ _ => rfl)).2⟩

/-- C2: whenever `GetDNSServices` succeeds, `SyncRoute53DNSRecords` returns
nil, for every service list, every AWS client and every state of it. -/
theorem SyncRoute53DNSRecords_returns_nil {κ α : Type} (ns : String)
    (kubernetesClient : KubernetesClient κ) (awsClient : AWSClient α) (k k1 : κ) (a : α)
    (services : List Service)
    (hlist : kubernetesClient.GetDNSServices ns "dns=route53" k = ((services, none), k1)) :
    (SyncRoute53DNSRecords ns kubernetesClient awsClient k a).err = none := by
  simp [SyncRoute53DNSRecords, hlist]

/-- C2 witness: a listing in which one service has no ingress, one has two, one
lacks the annotation, and one has two domains, against an AWS client whose
zone lookup fails for one domain and whose update always fails. -/
theorem SyncRoute53DNSRecords_returns_nil_witness :
    (SyncRoute53DNSRecords ""
      (KubernetesClientDummy
        [testService [] [("domainNames", "some.domain.com")],
          testService ["a-1.elb.amazonaws.com", "b-2.elb.amazonaws.com"]
            [("domainNames", "some.domain.com")],
          testService ["elb.hostname.amazonaws.com"] [],
          testService ["elb.hostname.amazonaws.com"]
            [("domainNames", "bad.domain.com, some.domain.com")]] none)
      (AWSClientDummy (fun _ => ("ELBZONEID", none))
        (fun d => if d = "bad.domain.com" then ("", some "error") else ("DOMAINZONEID", none))
        (fun _ _ _ _ => some "error")) () ()).err = none :=
  SyncRoute53DNSRecords_returns_nil "" _ _ () () () _ rfl

/-- C3: if `GetDNSServices` returns an error `e`, `SyncRoute53DNSRecords`
returns the error "Failed to list pods: e"; the listing is the only call of the
pass, so no method of the AWS client is called and its state is unchanged. -/
theorem SyncRoute53DNSRecords_listing_error {κ α : Type} (ns : String)
    (kubernetesClient : KubernetesClient κ) (awsClient : AWSClient α) (k k1 : κ) (a : α)
    (services : List Service) (e : String)
    (hlist : kubernetesClient.GetDNSServices ns "dns=route53" k = ((services, some e), k1)) :
    (SyncRoute53DNSRecords ns kubernetesClient awsClient k a).err =
      some ("Failed to list pods: " ++ e) ∧
    (SyncRoute53DNSRecords ns kubernetesClient awsClient k a).trace =
      [.call (.GetDNSServices ns "dns=route53")] ∧
    awsCalls (SyncRoute53DNSRecords ns kubernetesClient awsClient k a).trace = [] ∧
    (SyncRoute53DNSRecords ns kubernetesClient awsClient k a).aws = a := by
  simp [SyncRoute53DNSRecords, hlist, awsCalls]

/-- C3 witness: the scenario "Error while trying to fetch services from
Kubernetes" of `processor_test.go`. -/
theorem SyncRoute53DNSRecords_listing_error_witness :
    (SyncRoute53DNSRecords "" (KubernetesClientDummy [] (some "error"))
      (AWSClientDummy (fun _ => ("ELBZONEID", none)) (fun _ => ("DOMAINZONEID", none))
        (fun _ _ _ _ => none)) () ()).err = some "Failed to list pods: error" ∧
    awsCalls (SyncRoute53DNSRecords "" (KubernetesClientDummy [] (some "error"))
      (AWSClientDummy (fun _ => ("ELBZONEID", none)) (fun _ => ("DOMAINZONEID", none))
        (fun _ _ _ _ => none)) () ()).trace = [] :=
  ⟨(SyncRoute53DNSRecords_listing_error "" (KubernetesClientDummy [] (some "error"))
      (AWSClientDummy (fun _ => ("ELBZONEID", none)) (fun _ => ("DOMAINZONEID", none))
        (fun _ _ _ _ => none)) () () () [] "error" rfl).1,
    (SyncRoute53DNSRecords_listing_error "" (KubernetesClientDummy [] (some "error"))
      (AWSClientDummy (fun _ => ("ELBZONEID", none)) (fun _ => ("DOMAINZONEID", none))
        (fun _ _ _ _ => none)) () () () [] "error" rfl).2.2.1⟩

/-- C4: within one service, when the answer of `GetHostedZoneID` depends only
on the domain, and whatever `UpdateDNS` answers, the inner loop calls
`GetHostedZoneID` for every domain and `UpdateDNS` for exactly the domains
whose lookup succeeds, in annotation order; so around any domain `d0` the
`UpdateDNS` calls of the domains before and after it are those they receive
without `d0`. -/
theorem syncDomains_isolation {α : Type} (awsClient : AWSClient α)
    (hz : String → String × Option String)
    (hhz : ∀ d a, (awsClient.GetHostedZoneID d a).1 = hz d)
    (service : Service) (h z : String) (a : α) :
    (∀ domainNames,
      awsCalls (syncDomains awsClient service h z domainNames a).1 =
        domainNames.flatMap (expectedDomainCalls hz h z) ∧
      updateCalls (syncDomains awsClient service h z domainNames a).1 =
        domainNames.filterMap (expectedUpdate hz h z)) ∧
    (∀ pre d0 post,
      updateCalls (syncDomains awsClient service h z (pre ++ d0 :: post) a).1 =
        pre.filterMap (expectedUpdate hz h z) ++ (expectedUpdate hz h z d0).toList ++
          post.filterMap (expectedUpdate hz h z)) := by
  refine ⟨fun ds => syncDomains_calls awsClient hz hhz service h z ds a, ?_⟩
  intro pre d0 post
  rw [(syncDomains_calls awsClient hz hhz service h z (pre ++ d0 :: post) a).2]
  cases hu : expectedUpdate hz h z d0 <;> simp [List.filterMap_append, List.filterMap_cons, hu]

/-- C4 witness: the domains `bad.domain.com, some.domain.com, other.domain.com`
with a failing zone lookup for the first and a failing `UpdateDNS` throughout:
the two other domains receive their `UpdateDNS` call, in order. -/
theorem syncDomains_isolation_witness :
    updateCalls (syncDomains
      (AWSClientDummy (fun _ => ("ELBZONEID", none))
        (fun d => if d = "bad.domain.com" then ("", some "error") else ("DOMAINZONEID", none))
        (fun _ _ _ _ => some "error"))
      (testService ["elb.hostname.amazonaws.com"] [])
      "elb.hostname.amazonaws.com" "ELBZONEID"
      ["bad.domain.com", "some.domain.com", "other.domain.com"] ()).1 =
    [.UpdateDNS "elb.hostname.amazonaws.com" "ELBZONEID" "some.domain.com" "DOMAINZONEID",
      .UpdateDNS "elb.hostname.amazonaws.com" "ELBZONEID" "other.domain.com" "DOMAINZONEID"] :=
  ((syncDomains_isolation
      (AWSClientDummy (fun _ => ("ELBZONEID", none))
        (fun d => if d = "bad.domain.com" then ("", some "error") else ("DOMAINZONEID", none))
        (fun _ _ _ _ => some "error"))
      (fun d => if d = "bad.domain.com" then ("", some "error") else ("DOMAINZONEID", none))
      (fun _ _ => rfl)
      (testService ["elb.hostname.amazonaws.com"] [])
      "elb.hostname.amazonaws.com" "ELBZONEID" ()).1
    ["bad.domain.com", "some.domain.com", "other.domain.com"]).2.trans (by decide)

/-- C5: with an AWS client whose lookups answer by their argument alone, the
AWS calls (and the `UpdateDNS` calls among them) of a pass over the listing
`A ++ B` are the calls of a pass over `A` followed by the calls of a pass over
`B`, from whatever states of the AWS client the three passes start. -/
theorem SyncRoute53DNSRecords_append {κ α : Type} (ns : String)
    (kubernetesClient : KubernetesClient κ) (awsClient : AWSClient α)
    (kA kA1 kB kB1 kAB kAB1 : κ) (A B : List Service)
    (lb hz : String → String × Option String)
    (hA : kubernetesClient.GetDNSServices ns "dns=route53" kA = ((A, none), kA1))
    (hB : kubernetesClient.GetDNSServices ns "dns=route53" kB = ((B, none), kB1))
    (hAB : kubernetesClient.GetDNSServices ns "dns=route53" kAB = ((A ++ B, none), kAB1))
    (hlb : ∀ h a, (awsClient.GetLoadBalancerHostedZoneID h a).1 = lb h)
    (hhz : ∀ d a, (awsClient.GetHostedZoneID d a).1 = hz d)
    (a aA aB : α) :
    awsCalls (SyncRoute53DNSRecords ns kubernetesClient awsClient kAB a).trace =
      awsCalls (SyncRoute53DNSRecords ns kubernetesClient awsClient kA aA).trace ++
        awsCalls (SyncRoute53DNSRecords ns kubernetesClient awsClient kB aB).trace ∧
    updateCalls (SyncRoute53DNSRecords ns kubernetesClient awsClient kAB a).trace =
      updateCalls (SyncRoute53DNSRecords ns kubernetesClient awsClient kA aA).trace ++
        updateCalls (SyncRoute53DNSRecords ns kubernetesClient awsClient kB aB).trace := by
  have h1 := SyncRoute53DNSRecords_calls ns kubernetesClient awsClient kA kA1 aA A lb hz
    hA hlb hhz
  have h2 := SyncRoute53DNSRecords_calls ns kubernetesClient awsClient kB kB1 aB B lb hz
    hB hlb hhz
  have h3 := SyncRoute53DNSRecords_calls ns kubernetesClient awsClient kAB kAB1 a (A ++ B) lb hz
    hAB hlb hhz
  rw [h1.1, h2.1, h3.1, h1.2.1, h2.2.1, h3.2.1]
  simp [expectedUpdateCalls, List.flatMap_append]

/-- C5 witness: a listing made of a valid service followed by a service without
annotation and a second valid service, split after the first service. -/
theorem SyncRoute53DNSRecords_append_witness :
    awsCalls (SyncRoute53DNSRecords "" KubernetesClientCluster
        (AWSClientDummy (fun _ => ("ELBZONEID", none)) (fun _ => ("DOMAINZONEID", none))
          (fun _ _ _ _ => none))
        ([testService ["one-1.elb.amazonaws.com"] [("domainNames", "one.domain.com")]] ++
          [testService ["two-2.elb.amazonaws.com"] [],
            testService ["three-3.elb.amazonaws.com"] [("domainNames", "three.domain.com")]])
        ()).trace =
      awsCalls (SyncRoute53DNSRecords "" KubernetesClientCluster
        (AWSClientDummy (fun _ => ("ELBZONEID", none)) (fun _ => ("DOMAINZONEID", none))
          (fun _ _ _ _ => none))
        [testService ["one-1.elb.amazonaws.com"] [("domainNames", "one.domain.com")]]
        ()).trace ++
      awsCalls (SyncRoute53DNSRecords "" KubernetesClientCluster
        (AWSClientDummy (fun _ => ("ELBZONEID", none)) (fun _ => ("DOMAINZONEID", none))
          (fun _ _ _ _ => none))
        [testService ["two-2.elb.amazonaws.com"] [],
          testService ["three-3.elb.amazonaws.com"] [("domainNames", "three.domain.com")]]
        ()).trace :=
  (SyncRoute53DNSRecords_append "" KubernetesClientCluster
    (AWSClientDummy (fun _ => ("ELBZONEID", none)) (fun _ => ("DOMAINZONEID", none))
      (fun _ _ _ _ => none))
    [testService ["one-1.elb.amazonaws.com"] [("domainNames", "one.domain.com")]]
    [testService ["one-1.elb.amazonaws.com"] [("domainNames", "one.domain.com")]]
    [testService ["two-2.elb.amazonaws.com"] [],
      testService ["three-3.elb.amazonaws.com"] [("domainNames", "three.domain.com")]]
    [testService ["two-2.elb.amazonaws.com"] [],
      testService ["three-3.elb.amazonaws.com"] [("domainNames", "three.domain.com")]]
    _ _ _ _
    (fun _ => ("ELBZONEID", none)) (fun _ => ("DOMAINZONEID", none))
    rfl rfl rfl (fun _ _ => rfl) (fun _ _ => rfl) () () ()).1

/-- The inner loop never calls `GetLoadBalancerHostedZoneID`, whatever the AWS
client answers. -/
theorem syncDomains_no_lookup {α : Type} (awsClient : AWSClient α) (service : Service)
    (h z : String) (domainNames : List String) (a : α) :
    ∀ c ∈ awsCalls (syncDomains awsClient service h z domainNames a).1,
      c.isGetLoadBalancerHostedZoneID = false := by
  induction domainNames generalizing a with
  | nil => simp [syncDomains, awsCalls]
  | cons d ds ih =>
    intro c hc
    simp only [syncDomains, awsCalls_append, List.mem_append] at hc
    rcases hc with hc | hc
    · unfold syncDomain at hc
      rcases hg : awsClient.GetHostedZoneID d a with ⟨⟨zd, e⟩, a1⟩
      rw [hg] at hc
      cases e with
      | some err =>
        simp [awsCalls] at hc
        subst hc
        rfl
      | none =>
        rcases hu : awsClient.UpdateDNS h z d zd a1 with ⟨_ | err, a2⟩ <;>
          simp [awsCalls, hu] at hc <;> rcases hc with hc | hc <;> subst hc <;> rfl
    · exact ih _ c hc

/-- C6: for every AWS client and state, the iteration of the outer loop for one
service makes no AWS call at all when `ServiceIngressHostname` or
`ServiceDomainNames` fails, and only the `GetLoadBalancerHostedZoneID` call
when that lookup fails (so no `GetHostedZoneID` and no `UpdateDNS` call);
`GetLoadBalancerHostedZoneID` is called at most once, and only with the ingress
hostname after both `ServiceIngressHostname` and `ServiceDomainNames`
succeeded. -/
theorem syncService_guards {α : Type} (awsClient : AWSClient α) (service : Service) (a : α) :
    (((ServiceIngressHostname service).2 ≠ none ∨ (ServiceDomainNames service).2 ≠ none) →
      awsCalls (syncService awsClient service a).1 = []) ∧
    ((ServiceIngressHostname service).2 = none → (ServiceDomainNames service).2 = none →
      (awsClient.GetLoadBalancerHostedZoneID (ServiceIngressHostname service).1 a).1.2 ≠ none →
      awsCalls (syncService awsClient service a).1 =
        [.GetLoadBalancerHostedZoneID (ServiceIngressHostname service).1]) ∧
    (awsCalls (syncService awsClient service a).1).countP
      Call.isGetLoadBalancerHostedZoneID ≤ 1 ∧
    (∀ c ∈ awsCalls (syncService awsClient service a).1,
      c.isGetLoadBalancerHostedZoneID = true →
      (ServiceIngressHostname service).2 = none ∧ (ServiceDomainNames service).2 = none ∧
      c = .GetLoadBalancerHostedZoneID (ServiceIngressHostname service).1) := by
  unfold syncService
  rcases hI : ServiceIngressHostname service with ⟨h, _ | e1⟩
  · rcases hD : ServiceDomainNames service with ⟨ds, _ | e2⟩
    · rcases hg : awsClient.GetLoadBalancerHostedZoneID h a with ⟨⟨z, _ | e3⟩, a1⟩
      · have hno := syncDomains_no_lookup awsClient service h z ds a1
        have hcount : (awsCalls (syncDomains awsClient service h z ds a1).1).countP
            Call.isGetLoadBalancerHostedZoneID = 0 := by
          rw [List.countP_eq_zero]
          intro c hc
          simp [hno c hc]
        have hcons : awsCalls (Event.call (Call.GetLoadBalancerHostedZoneID h) ::
            (syncDomains awsClient service h z ds a1).1) =
            Call.GetLoadBalancerHostedZoneID h ::
              awsCalls (syncDomains awsClient service h z ds a1).1 := by
          simp [awsCalls]
        simp only [hg, hcons]
        refine ⟨by simp, by simp, ?_, ?_⟩
        · simp [List.countP_cons, hcount, Call.isGetLoadBalancerHostedZoneID]
        · intro c hc hlb
          rcases List.mem_cons.1 hc with hc | hc
          · exact ⟨trivial, trivial, hc⟩
          · rw [hno c hc] at hlb
            exact absurd hlb (by simp)
      · simp [hg, awsCalls, Call.isGetLoadBalancerHostedZoneID]
    · simp [awsCalls]
  · simp [awsCalls]

/-! ## More lemmas on splitting -/

theorem splitChars_ne_nil (sep : Char) (l : List Char) : strings.splitChars sep l ≠ [] := by
  intro h
  have := splitChars_length sep l
  rw [h] at this
  simp at this

/-- The first piece is the text before the first separator, and the other
pieces are the pieces of the text after it. -/
theorem splitChars_eq (sep : Char) (l : List Char) :
    strings.splitChars sep l =
      l.takeWhile (fun c => c != sep) ::
        (if sep ∈ l then strings.splitChars sep ((l.dropWhile (fun c => c != sep)).drop 1)
          else []) := by
  induction l with
  | nil => simp [strings.splitChars]
  | cons c cs ih =>
    by_cases h : c = sep
    · subst h
      simp [strings.splitChars]
    · have hne : ¬ sep = c := fun e => h e.symm
      rw [strings.splitChars, if_neg h, ih]
      simp [h, hne]

theorem joinChars_cons_cons (sep c : Char) (p : List Char) (ps : List (List Char)) :
    strings.joinChars sep ((c :: p) :: ps) = c :: strings.joinChars sep (p :: ps) := by
  cases ps <;> simp [strings.joinChars]

/-- Joining the pieces of a split gives the text back. -/
theorem joinChars_splitChars (sep : Char) (l : List Char) :
    strings.joinChars sep (strings.splitChars sep l) = l := by
  induction l with
  | nil => simp [strings.splitChars, strings.joinChars]
  | cons c cs ih =>
    cases hs : strings.splitChars sep cs with
    | nil => exact absurd hs (splitChars_ne_nil sep cs)
    | cons p ps =>
      rw [hs] at ih
      by_cases h : c = sep
      · subst h
        simp [strings.splitChars, hs, strings.joinChars, ih]
      · simp [strings.splitChars, h, hs, joinChars_cons_cons, ih]

/-- No piece of a split holds the separator. -/
theorem splitChars_no_sep (sep : Char) (l : List Char) :
    ∀ p ∈ strings.splitChars sep l, sep ∉ p := by
  induction l with
  | nil => simp [strings.splitChars]
  | cons c cs ih =>
    cases hs : strings.splitChars sep cs with
    | nil => exact absurd hs (splitChars_ne_nil sep cs)
    | cons q qs =>
      rw [hs] at ih
      by_cases h : c = sep
      · subst h
        intro p hp
        simp only [strings.splitChars, if_true, hs, List.mem_cons] at hp
        rcases hp with hp | hp
        · subst hp; simp
        · exact ih p (List.mem_cons.2 hp)
      · intro p hp
        simp only [strings.splitChars, if_neg h, hs, List.mem_cons] at hp
        have hne : ¬ sep = c := fun e => h e.symm
        rcases hp with hp | hp
        · subst hp
          have := ih q (List.mem_cons_self _ _)
          simp [hne, this]
        · exact ih p (List.mem_cons_of_mem _ hp)

theorem joinChars_append_singleton (sep : Char) (xs : List (List Char)) (y : List Char)
    (hxs : xs ≠ []) :
    strings.joinChars sep (xs ++ [y]) = strings.joinChars sep xs ++ sep :: y := by
  induction xs with
  | nil => exact absurd rfl hxs
  | cons x rest ih =>
    cases rest with
    | nil => simp [strings.joinChars]
    | cons x1 r =>
      have := ih (by simp)
      simp only [List.cons_append] at this ⊢
      simp [strings.joinChars, this]

/-- A list of at least two elements ends with its last two elements. -/
theorem drop_last_two {β : Type} (l : List β) (h : 2 ≤ l.length) :
    ∃ a b, l = l.take (l.length - 2) ++ [a, b] ∧ l.drop (l.length - 2) = [a, b] := by
  have hlen : (l.drop (l.length - 2)).length = 2 := by
    rw [List.length_drop]
    omega
  match hd : l.drop (l.length - 2), hlen with
  | [a, b], _ =>
    refine ⟨a, b, ?_, rfl⟩
    conv_lhs => rw [← List.take_append_drop (l.length - 2) l]
    rw [hd]

/-! ## The hostname parser, continued -/

/-- C11: for every hostname containing a `-`, `loadBalancerNameFromHostname`
succeeds and returns the text before the first `-`, unless that text is
exactly `internal`, in which case it returns the text between the first `-`
and the second (or the end of the hostname when there is no second `-`). -/
theorem loadBalancerNameFromHostname_name (hostname : String) (h : '-' ∈ hostname.data) :
    loadBalancerNameFromHostname hostname =
      (if String.mk (hostname.data.takeWhile (fun c => c != '-')) = "internal" then
          String.mk (((hostname.data.dropWhile (fun c => c != '-')).drop 1).takeWhile
            (fun c => c != '-'))
        else String.mk (hostname.data.takeWhile (fun c => c != '-')), none) := by
  unfold loadBalancerNameFromHostname strings.Split
  rw [splitChars_eq '-' hostname.data, if_pos h,
    splitChars_eq '-' ((hostname.data.dropWhile (fun c => c != '-')).drop 1)]
  simp only [List.map_cons]
  split <;> rfl

/-- C11 witness: the two hostnames of `TestLoadBalancerNameFromHostname`. -/
theorem loadBalancerNameFromHostname_name_witness :
    loadBalancerNameFromHostname "internal-testinternal-2222222222.us-east-1.elb.amazonaws.com" =
      ("testinternal", none) ∧
    loadBalancerNameFromHostname "testpublic-1111111111.us-east-1.elb.amazonaws.com" =
      ("testpublic", none) :=
  ⟨(loadBalancerNameFromHostname_name
      "internal-testinternal-2222222222.us-east-1.elb.amazonaws.com" (by decide)).trans
      (by decide),
    (loadBalancerNameFromHostname_name
      "testpublic-1111111111.us-east-1.elb.amazonaws.com" (by decide)).trans (by decide)⟩

/-- C12: `getTLD` fails if and only if the domain has fewer than 3
dot-separated labels, that is fewer than two `.` characters, and the error it
then returns, with the empty result, is the message "Domain d is invalid - it
should be a fully qualified domain name and subdomain (i.e. test.example.com)"
with the domain inserted verbatim. -/
theorem getTLD_fails_iff (domain : String) :
    ((getTLD domain).2 ≠ none ↔ (strings.Split domain '.').length < 3) ∧
    ((strings.Split domain '.').length < 3 ↔ domain.data.count '.' < 2) ∧
    ((getTLD domain).2 ≠ none ↔
      getTLD domain = ("", some ("Domain " ++ domain ++
        " is invalid - it should be a fully qualified domain name and subdomain (i.e. test.example.com)"))) := by
  have hlen : (strings.Split domain '.').length = domain.data.count '.' + 1 := by
    simp [strings.Split, splitChars_length]
  refine ⟨?_, by rw [hlen]; omega, ?_⟩
  · unfold getTLD
    by_cases h : (strings.Split domain '.').length < 3 <;> simp [h]
  · unfold getTLD
    by_cases h : (strings.Split domain '.').length < 3
    · simp only [h, if_true]
      constructor
      · intro _
        apply Prod.ext
        · rfl
        · simp only [Option.some.injEq]
          apply String.ext
          simp [String.data_append, List.append_assoc]
      · intro _; simp
    · simp [h]

/-- The last two labels of a domain with at least three labels, and what
`getTLD` returns for it. -/
theorem getTLD_parts (domain : String) (h : 3 ≤ (strings.Split domain '.').length) :
    ∃ pre a b, pre ≠ [] ∧ strings.splitChars '.' domain.data = pre ++ [a, b] ∧
      getTLD domain = (String.mk (a ++ '.' :: b), none) := by
  have hlen : (strings.Split domain '.').length = (strings.splitChars '.' domain.data).length := by
    simp [strings.Split]
  rw [hlen] at h
  obtain ⟨a, b, hsplit, hdrop⟩ := drop_last_two (strings.splitChars '.' domain.data) (by omega)
  refine ⟨(strings.splitChars '.' domain.data).take
    ((strings.splitChars '.' domain.data).length - 2), a, b, ?_, hsplit, ?_⟩
  · intro hnil
    have := congrArg List.length hnil
    simp at this
    omega
  · unfold getTLD
    have hn : ¬ (strings.Split domain '.').length < 3 := by rw [hlen]; omega
    simp only [hn, if_false]
    unfold strings.Split
    rw [List.length_map, ← List.map_drop, hdrop]
    apply Prod.ext
    · apply String.ext
      simp [strings.Join, String.data_append]
    · rfl

/-- C13: for every domain with at least 3 dot-separated labels, `getTLD`
succeeds and returns the last two labels joined by `.`; the result contains
exactly one `.`, and `.` followed by the result is a suffix of the domain. -/
theorem getTLD_last_two (domain : String) (h : 3 ≤ (strings.Split domain '.').length) :
    ∃ pre a b, strings.Split domain '.' = pre ++ [a, b] ∧
      getTLD domain = (a ++ "." ++ b, none) ∧
      (getTLD domain).1.data.count '.' = 1 ∧
      ("." ++ (getTLD domain).1).data <:+ domain.data := by
  obtain ⟨pre, a, b, hpre, hsplit, hres⟩ := getTLD_parts domain h
  have hno := splitChars_no_sep '.' domain.data
  rw [hsplit] at hno
  have ha : '.' ∉ a := hno a (by simp)
  have hb : '.' ∉ b := hno b (by simp)
  have hjoin := joinChars_splitChars '.' domain.data
  rw [hsplit] at hjoin
  have e1 : pre ++ [a, b] = (pre ++ [a]) ++ [b] := by simp
  rw [e1, joinChars_append_singleton '.' (pre ++ [a]) b (by simp),
    joinChars_append_singleton '.' pre a hpre] at hjoin
  refine ⟨pre.map String.mk, String.mk a, String.mk b, ?_, ?_, ?_, ?_⟩
  · simp [strings.Split, hsplit]
  · rw [hres]
    apply Prod.ext
    · apply String.ext
      simp [String.data_append]
    · rfl
  · rw [hres]
    simp [List.count_append, List.count_cons, List.count_eq_zero.2 ha, List.count_eq_zero.2 hb]
  · rw [hres]
    refine ⟨strings.joinChars '.' pre, ?_⟩
    rw [← hjoin]
    simp [String.data_append]

/-- C13 witness: the domains of `TestGetTLD`. -/
theorem getTLD_last_two_witness :
    (∃ pre a b, strings.Split "this.is.really.long.hello.goodbye.io" '.' = pre ++ [a, b] ∧
      getTLD "this.is.really.long.hello.goodbye.io" = (a ++ "." ++ b, none) ∧
      (getTLD "this.is.really.long.hello.goodbye.io").1.data.count '.' = 1 ∧
      ("." ++ (getTLD "this.is.really.long.hello.goodbye.io").1).data <:+
        "this.is.really.long.hello.goodbye.io".data) ∧
    getTLD "this.is.really.long.hello.goodbye.io" = ("goodbye.io", none) ∧
    getTLD ".test.com" = ("test.com", none) :=
  ⟨getTLD_last_two "this.is.really.long.hello.goodbye.io" (by decide), by decide, by decide⟩

/-- C14 (as stated) fails on the empty string: `domainWithTrailingDot` slices
the last byte of its argument and panics, so it returns no string ending in
`.` and cannot be applied twice. -/
theorem C14_counterexample : domainWithTrailingDot "" = none := by
  decide

/-- C14 (amended): for every non-empty domain `d`, `domainWithTrailingDot d`
returns a string `r` that ends with `.`, equal to `d` when `d` already ends
with `.` and to `d ++ "."` otherwise, and `domainWithTrailingDot r = r`. -/
theorem domainWithTrailingDot_idempotent (d : String) (hne : d ≠ "") :
    ∃ r, domainWithTrailingDot d = some r ∧
      r.data.getLast? = some '.' ∧
      (d.data.getLast? = some '.' → r = d) ∧
      (d.data.getLast? ≠ some '.' → r = d ++ ".") ∧
      domainWithTrailingDot r = some r := by
  obtain ⟨r, hr⟩ := domainWithTrailingDot_isSome d hne
  refine ⟨r, hr, ?_⟩
  unfold domainWithTrailingDot at hr
  cases hl : d.data.getLast? with
  | none => simp [hl] at hr
  | some c =>
    rw [hl] at hr
    by_cases hc : c = '.'
    · subst hc
      simp only [if_true, Option.some.injEq] at hr
      subst hr
      refine ⟨hl, fun _ => rfl, fun hcontra => absurd rfl hcontra, ?_⟩
      simp [domainWithTrailingDot, hl]
    · simp only [if_neg hc, Option.some.injEq] at hr
      subst hr
      have hlast : (d ++ ".").data.getLast? = some '.' := by
        have : (d ++ ".").data = d.data ++ ['.'] := rfl
        rw [this]
        simp
      refine ⟨hlast, fun hcontra => ?_, fun _ => rfl, ?_⟩
      · exact absurd (Option.some.inj hcontra) hc
      · simp [domainWithTrailingDot, hlast]

/-- C14 witness: the two domains of `TestDomainWithTrailingDot`. -/
theorem domainWithTrailingDot_idempotent_witness :
    (∃ r, domainWithTrailingDot ".test.com" = some r ∧
      r.data.getLast? = some '.' ∧
      (".test.com".data.getLast? = some '.' → r = ".test.com") ∧
      (".test.com".data.getLast? ≠ some '.' → r = ".test.com" ++ ".") ∧
      domainWithTrailingDot r = some r) ∧
    domainWithTrailingDot ".test.com" = some ".test.com." ∧
    domainWithTrailingDot "hello.goodbye.io." = some "hello.goodbye.io." :=
  ⟨domainWithTrailingDot_idempotent ".test.com" (by decide), by decide, by decide⟩

/-! ## The methods of `AWSClientImpl` -/

/-- The last piece of a split: it holds no separator, and the text is either
that piece alone or ends with the separator followed by that piece. -/
theorem splitChars_getLast (sep : Char) (l : List Char) :
    ∃ last, (strings.splitChars sep l).getLast? = some last ∧ sep ∉ last ∧
      (l = last ∨ ∃ pre, l = pre ++ sep :: last) := by
  rcases List.eq_nil_or_concat (strings.splitChars sep l) with hnil | ⟨init, last, hs⟩
  · exact absurd hnil (splitChars_ne_nil sep l)
  · rw [List.concat_eq_append] at hs
    have hno := splitChars_no_sep sep l
    have hjoin := joinChars_splitChars sep l
    rw [hs] at hno hjoin
    refine ⟨last, by simp [hs], hno last (by simp), ?_⟩
    cases init with
    | nil =>
      left
      simpa [strings.joinChars] using hjoin.symm
    | cons x xs =>
      right
      rw [joinChars_append_singleton sep (x :: xs) last (by simp)] at hjoin
      exact ⟨strings.joinChars sep (x :: xs), hjoin.symm⟩

/-- The zone matcher returns a zone or an error, never both and never
neither. -/
theorem findMostSpecificZoneForDomain_shape (domain : String) (zones : List HostedZone)
    (z : Option HostedZone) (e : Option String)
    (h : findMostSpecificZoneForDomain domain zones = some (z, e)) :
    (z = none ∧ e ≠ none) ∨ (z ≠ none ∧ e = none) := by
  unfold findMostSpecificZoneForDomain at h
  cases hd : domainWithTrailingDot domain with
  | none => simp [hd] at h
  | some d =>
    simp only [hd] at h
    split at h
    · simp only [Option.some.injEq, Prod.mk.injEq] at h
      left
      exact ⟨h.1.symm, by rw [← h.2]; simp⟩
    · split at h
      · simp only [Option.some.injEq, Prod.mk.injEq] at h
        left
        exact ⟨h.1.symm, by rw [← h.2]; simp⟩
      · simp only [Option.some.injEq, Prod.mk.injEq] at h
        right
        exact ⟨by rw [← h.1]; simp, h.2.symm⟩

/-- The zone matcher does not panic on a non-empty domain. -/
theorem findMostSpecificZoneForDomain_isSome (domain : String) (zones : List HostedZone)
    (hne : domain ≠ "") : findMostSpecificZoneForDomain domain zones ≠ none := by
  obtain ⟨d, hd⟩ := domainWithTrailingDot_isSome domain hne
  unfold findMostSpecificZoneForDomain
  simp only [hd]
  split
  · simp
  · split <;> simp

/-- A domain with at least three labels is not empty. -/
theorem ne_empty_of_labels (domain : String) (h : 3 ≤ (strings.Split domain '.').length) :
    domain ≠ "" := by
  intro hd
  subst hd
  revert h
  decide

/-- C15: when the domain has at least 3 labels and the provider answers the
query with a zone list and no error, `GetHostedZoneID` returns after exactly
one request, `ListHostedZonesByName` with `DNSName = getTLD(domain)`; and when
`findMostSpecificZoneForDomain(domain, zones)` selects a zone, the returned
error is nil and the returned ID is the text after the last `/` of that zone's
`Id`: it contains no `/`, and the `Id` is that text alone or ends with `/`
followed by it. -/
theorem GetHostedZoneID_success {ρ ε : Type} (c : AWSClientImpl ρ ε) (domain : String)
    (s : ρ × ε) (hzOut : ListHostedZonesByNameOutput) (r1 : ρ)
    (hlabels : 3 ≤ (strings.Split domain '.').length)
    (hlist : c.route53.ListHostedZonesByName { DNSName := some (getTLD domain).1 } s.1 =
      ((some hzOut, none), r1)) :
    ∃ o, c.GetHostedZoneID domain s = some o ∧
      o.events = [.call (.ListHostedZonesByName { DNSName := some (getTLD domain).1 })] ∧
      o.state = (r1, s.2) ∧
      ∀ zone, findMostSpecificZoneForDomain domain hzOut.HostedZones = some (some zone, none) →
        o.ret.2 = none ∧ '/' ∉ o.ret.1.data ∧
        ((aws.StringValue zone.Id).data = o.ret.1.data ∨
          ∃ pre, (aws.StringValue zone.Id).data = pre ++ '/' :: o.ret.1.data) := by
  obtain ⟨_, a, b, _, _, htld⟩ := getTLD_parts domain hlabels
  have hne := ne_empty_of_labels domain hlabels
  rw [htld] at hlist
  simp only at hlist
  unfold AWSClientImpl.GetHostedZoneID
  simp only [htld, hlist]
  rcases hf : findMostSpecificZoneForDomain domain hzOut.HostedZones with _ | ⟨z, e⟩
  · exact absurd hf (findMostSpecificZoneForDomain_isSome domain _ hne)
  · rcases findMostSpecificZoneForDomain_shape domain _ z e hf with ⟨hz, he⟩ | ⟨hz, he⟩
    · subst hz
      cases e with
      | none => exact absurd rfl he
      | some err => exact ⟨_, rfl, rfl, rfl, fun zone hzone => by simp at hzone⟩
    · subst he
      cases z with
      | none => exact absurd rfl hz
      | some zone =>
        obtain ⟨last, hlast, hno, hid⟩ :=
          splitChars_getLast '/' (aws.StringValue zone.Id).data
        have hparts : (strings.Split (aws.StringValue zone.Id) '/').getLast? =
            some (String.mk last) := by
          simp [strings.Split, List.getLast?_map, hlast]
        simp only [hparts]
        refine ⟨_, rfl, rfl, rfl, ?_⟩
        intro zone1 hzone
        simp only [Option.some.injEq, Prod.mk.injEq, and_true] at hzone
        subst hzone
        exact ⟨rfl, hno, hid⟩

/-- C15 witness: the scenario "Valid destination zone" of
`TestGetHostedZoneID`: the zone `/hostedzone/ABC123` gives `ABC123`. -/
theorem GetHostedZoneID_success_witness :
    (∃ o, AWSClientImpl.GetHostedZoneID
        ⟨DummyRoute53Client
          (some ⟨[⟨some "domain.com.", some "/hostedzone/ABC123"⟩]⟩) none none,
          DummyELBClient none none⟩ "valid.domain.com" ((), ()) = some o ∧
      o.events = [.call (.ListHostedZonesByName { DNSName := some (getTLD "valid.domain.com").1 })] ∧
      o.state = ((), ()) ∧
      ∀ zone, findMostSpecificZoneForDomain "valid.domain.com"
          [⟨some "domain.com.", some "/hostedzone/ABC123"⟩] = some (some zone, none) →
        o.ret.2 = none ∧ '/' ∉ o.ret.1.data ∧
        ((aws.StringValue zone.Id).data = o.ret.1.data ∨
          ∃ pre, (aws.StringValue zone.Id).data = pre ++ '/' :: o.ret.1.data)) ∧
    AWSClientImpl.GetHostedZoneID
        ⟨DummyRoute53Client
          (some ⟨[⟨some "domain.com.", some "/hostedzone/ABC123"⟩]⟩) none none,
          DummyELBClient none none⟩ "valid.domain.com" ((), ()) =
      some { ret := ("ABC123", none),
             events := [.call (.ListHostedZonesByName { DNSName := some "domain.com" })],
             state := ((), ()) } :=
  ⟨GetHostedZoneID_success
      ⟨DummyRoute53Client
        (some ⟨[⟨some "domain.com.", some "/hostedzone/ABC123"⟩]⟩) none none,
        DummyELBClient none none⟩ "valid.domain.com" ((), ())
      ⟨[⟨some "domain.com.", some "/hostedzone/ABC123"⟩]⟩ () (by decide) rfl,
    by decide⟩

/-- C16: `GetHostedZoneID` returns the empty ID with an error in each failure
case: when `getTLD` rejects the domain, the error of `getTLD` and no request;
when `ListHostedZonesByName` fails with `e`, the error "No zone found for
tld: e"; when the zone matcher fails, the error of the matcher unchanged. -/
theorem GetHostedZoneID_failures {ρ ε : Type} (c : AWSClientImpl ρ ε) (domain : String)
    (s : ρ × ε) :
    (∀ e, (getTLD domain).2 = some e →
      c.GetHostedZoneID domain s = some { ret := ("", some e), events := [], state := s }) ∧
    (∀ out e r1, (getTLD domain).2 = none →
      c.route53.ListHostedZonesByName { DNSName := some (getTLD domain).1 } s.1 =
        ((out, some e), r1) →
      c.GetHostedZoneID domain s =
        some { ret := ("", some ("No zone found for " ++ (getTLD domain).1 ++ ": " ++ e)),
               events := [.call (.ListHostedZonesByName { DNSName := some (getTLD domain).1 })],
               state := (r1, s.2) }) ∧
    (∀ hzOut r1 z e, (getTLD domain).2 = none →
      c.route53.ListHostedZonesByName { DNSName := some (getTLD domain).1 } s.1 =
        ((some hzOut, none), r1) →
      findMostSpecificZoneForDomain domain hzOut.HostedZones = some (z, some e) →
      c.GetHostedZoneID domain s =
        some { ret := ("", some e),
               events := [.call (.ListHostedZonesByName { DNSName := some (getTLD domain).1 })],
               state := (r1, s.2) }) := by
  rcases hg : getTLD domain with ⟨tld, terr⟩
  refine ⟨?_, ?_, ?_⟩
  · intro e he
    simp only at he
    subst he
    simp [AWSClientImpl.GetHostedZoneID, hg]
  · intro out e r1 he hlist
    simp only at he hlist
    subst he
    simp [AWSClientImpl.GetHostedZoneID, hg, hlist]
  · intro hzOut r1 z e he hlist hf
    simp only at he hlist
    subst he
    simp [AWSClientImpl.GetHostedZoneID, hg, hlist, hf]

/-- C16 witness: the three failing scenarios of `TestGetHostedZoneID`. -/
theorem GetHostedZoneID_failures_witness :
    AWSClientImpl.GetHostedZoneID
        ⟨DummyRoute53Client none none none, DummyELBClient none none⟩
        "top-level-domain.com" ((), ()) =
      some { ret := ("", some ("Domain top-level-domain.com is invalid - it should be a fully " ++
               "qualified domain name and subdomain (i.e. test.example.com)")),
             events := [], state := ((), ()) } ∧
    AWSClientImpl.GetHostedZoneID
        ⟨DummyRoute53Client none (some "error") none, DummyELBClient none none⟩
        "valid.domain.com" ((), ()) =
      some { ret := ("", some "No zone found for domain.com: error"),
             events := [.call (.ListHostedZonesByName { DNSName := some "domain.com" })],
             state := ((), ()) } ∧
    AWSClientImpl.GetHostedZoneID
        ⟨DummyRoute53Client (some ⟨[⟨some "other.com.", some "/hostedzone/ABC123"⟩]⟩) none none,
          DummyELBClient none none⟩
        "valid.domain.com" ((), ()) =
      some { ret := ("", some "No zone matches domain valid.domain.com."),
             events := [.call (.ListHostedZonesByName { DNSName := some "domain.com" })],
             state := ((), ()) } :=
  ⟨((GetHostedZoneID_failures
        ⟨DummyRoute53Client none none none, DummyELBClient none none⟩
        "top-level-domain.com" ((), ())).1
        ("Domain top-level-domain.com is invalid - it should be a fully " ++
          "qualified domain name and subdomain (i.e. test.example.com)") (by decide)),
    ((GetHostedZoneID_failures
        ⟨DummyRoute53Client none (some "error") none, DummyELBClient none none⟩
        "valid.domain.com" ((), ())).2.1 none "error" () (by decide) rfl).trans (by decide),
    ((GetHostedZoneID_failures
        ⟨DummyRoute53Client (some ⟨[⟨some "other.com.", some "/hostedzone/ABC123"⟩]⟩) none none,
          DummyELBClient none none⟩
        "valid.domain.com" ((), ())).2.2
        ⟨[⟨some "other.com.", some "/hostedzone/ABC123"⟩]⟩ () none
        "No zone matches domain valid.domain.com." (by decide) rfl (by decide)).trans
      (by decide)⟩

/-- C17: when the hostname parses and `DescribeLoadBalancers` answers with a
response and no error, `GetLoadBalancerHostedZoneID` returns, and what it
returns is decided by the number of descriptions: none gives the error "No
load balancer found", more than one gives "Multiple load balancers found", and
exactly one gives its `CanonicalHostedZoneNameID` with a nil error. -/
theorem GetLoadBalancerHostedZoneID_by_count {ρ ε : Type} (c : AWSClientImpl ρ ε)
    (hostname name : String) (s : ρ × ε) (resp : DescribeLoadBalancersOutput) (e1 : ε)
    (hparse : loadBalancerNameFromHostname hostname = (name, none))
    (hdesc : c.elb.DescribeLoadBalancers { LoadBalancerNames := [some name] } s.2 =
      ((some resp, none), e1)) :
    ∃ o, c.GetLoadBalancerHostedZoneID hostname s = some o ∧
      (resp.LoadBalancerDescriptions.length = 0 →
        o.ret = ("", some "No load balancer found")) ∧
      (1 < resp.LoadBalancerDescriptions.length →
        o.ret = ("", some "Multiple load balancers found")) ∧
      (∀ desc, resp.LoadBalancerDescriptions = [desc] →
        o.ret = (aws.StringValue desc.CanonicalHostedZoneNameID, none)) := by
  unfold AWSClientImpl.GetLoadBalancerHostedZoneID
  simp only [hparse, hdesc]
  rcases hl : resp.LoadBalancerDescriptions with _ | ⟨d0, _ | ⟨d1, rest⟩⟩
  · exact ⟨_, rfl, fun _ => rfl, fun h => by simp at h, fun d h => by simp at h⟩
  · refine ⟨_, rfl, fun h => by simp at h, fun h => by simp at h, fun d h => ?_⟩
    simp only [List.cons.injEq, and_true] at h
    subst h
    rfl
  · exact ⟨_, rfl, fun h => by simp at h, fun _ => rfl, fun d h => by simp at h⟩

/-- C17 witness: the scenarios of `TestGetLoadBalancerHostedZoneID` with no,
two and one description. -/
theorem GetLoadBalancerHostedZoneID_by_count_witness :
    (∃ o, AWSClientImpl.GetLoadBalancerHostedZoneID
        ⟨DummyRoute53Client none none none,
          DummyELBClient (some ⟨[⟨some "DOMAINZONEID"⟩]⟩) none⟩
        "testpublic-1111111111.us-east-1.elb.amazonaws.com" ((), ()) = some o ∧
      (([⟨some "DOMAINZONEID"⟩] : List LoadBalancerDescription).length = 0 →
        o.ret = ("", some "No load balancer found")) ∧
      (1 < ([⟨some "DOMAINZONEID"⟩] : List LoadBalancerDescription).length →
        o.ret = ("", some "Multiple load balancers found")) ∧
      (∀ desc, ([⟨some "DOMAINZONEID"⟩] : List LoadBalancerDescription) = [desc] →
        o.ret = (aws.StringValue desc.CanonicalHostedZoneNameID, none))) ∧
    (AWSClientImpl.GetLoadBalancerHostedZoneID
        ⟨DummyRoute53Client none none none,
          DummyELBClient (some ⟨[⟨some "DOMAINZONEID"⟩]⟩) none⟩
        "testpublic-1111111111.us-east-1.elb.amazonaws.com" ((), ())).map (fun o => o.ret) =
      some ("DOMAINZONEID", none) ∧
    (AWSClientImpl.GetLoadBalancerHostedZoneID
        ⟨DummyRoute53Client none none none, DummyELBClient (some ⟨[]⟩) none⟩
        "testpublic-1111111111.us-east-1.elb.amazonaws.com" ((), ())).map (fun o => o.ret) =
      some ("", some "No load balancer found") ∧
    (AWSClientImpl.GetLoadBalancerHostedZoneID
        ⟨DummyRoute53Client none none none, DummyELBClient (some ⟨[⟨none⟩, ⟨none⟩]⟩) none⟩
        "testpublic-1111111111.us-east-1.elb.amazonaws.com" ((), ())).map (fun o => o.ret) =
      some ("", some "Multiple load balancers found") :=
  ⟨GetLoadBalancerHostedZoneID_by_count
      ⟨DummyRoute53Client none none none,
        DummyELBClient (some ⟨[⟨some "DOMAINZONEID"⟩]⟩) none⟩
      "testpublic-1111111111.us-east-1.elb.amazonaws.com" "testpublic" ((), ())
      ⟨[⟨some "DOMAINZONEID"⟩]⟩ () (by decide) rfl,
    by decide, by decide, by decide⟩

/-- C18: when the hostname does not parse, `GetLoadBalancerHostedZoneID`
returns "Could not parse ELB hostname: " followed by the parse error and sends
no request. When it parses to `name`, the method sends exactly one request,
`DescribeLoadBalancers` with the single load-balancer name `name` (it panics
only when the provider answers that request with a nil output and a nil
error), and when the request fails with `e` it returns "Could not describe
load balancer: e". -/
theorem GetLoadBalancerHostedZoneID_query {ρ ε : Type} (c : AWSClientImpl ρ ε)
    (hostname : String) (s : ρ × ε) :
    (∀ perr, (loadBalancerNameFromHostname hostname).2 = some perr →
      c.GetLoadBalancerHostedZoneID hostname s =
        some { ret := ("", some ("Could not parse ELB hostname: " ++ perr)),
               events := [], state := s }) ∧
    (∀ name, loadBalancerNameFromHostname hostname = (name, none) →
      (∀ o, c.GetLoadBalancerHostedZoneID hostname s = some o →
        o.events = [.call (.DescribeLoadBalancers { LoadBalancerNames := [some name] })]) ∧
      (c.GetLoadBalancerHostedZoneID hostname s = none ↔
        (c.elb.DescribeLoadBalancers { LoadBalancerNames := [some name] } s.2).1 =
          (none, none)) ∧
      (∀ out e e1,
        c.elb.DescribeLoadBalancers { LoadBalancerNames := [some name] } s.2 =
          ((out, some e), e1) →
        c.GetLoadBalancerHostedZoneID hostname s =
          some { ret := ("", some ("Could not describe load balancer: " ++ e)),
                 events := [.call (.DescribeLoadBalancers { LoadBalancerNames := [some name] })],
                 state := (s.1, e1) })) := by
  constructor
  · intro perr hp
    rcases hl : loadBalancerNameFromHostname hostname with ⟨n, pe⟩
    rw [hl] at hp
    simp only at hp
    subst hp
    simp [AWSClientImpl.GetLoadBalancerHostedZoneID, hl]
  · intro name hparse
    unfold AWSClientImpl.GetLoadBalancerHostedZoneID
    simp only [hparse]
    rcases hd : c.elb.DescribeLoadBalancers { LoadBalancerNames := [some name] } s.2 with
      ⟨⟨out, err⟩, e1⟩
    cases err with
    | some e =>
      refine ⟨fun o ho => ?_, ?_, fun out1 e2 e3 h => ?_⟩
      · cases out <;> simp only [Option.some.injEq] at ho <;> subst ho <;> rfl
      · cases out <;> simp
      · simp only [Prod.mk.injEq, Option.some.injEq] at h
        obtain ⟨⟨_, h2⟩, h3⟩ := h
        subst h2 h3
        cases out <;> rfl
    | none =>
      cases out with
      | none => exact ⟨fun o ho => by simp at ho, by simp, fun out1 e2 e3 h => by simp at h⟩
      | some resp =>
        refine ⟨fun o ho => ?_, ?_, fun out1 e2 e3 h => by simp at h⟩
        · rcases hl : resp.LoadBalancerDescriptions with _ | ⟨d0, _ | ⟨d1, rest⟩⟩ <;>
            simp only [hl, Option.some.injEq] at ho <;> subst ho <;> rfl
        · rcases hl : resp.LoadBalancerDescriptions with _ | ⟨d0, _ | ⟨d1, rest⟩⟩ <;>
            simp [hl]

/-- C18 witness: the scenarios "Invalid load balancer name" and "Error when
trying to describe the load balancers" of `TestGetLoadBalancerHostedZoneID`. -/
theorem GetLoadBalancerHostedZoneID_query_witness :
    AWSClientImpl.GetLoadBalancerHostedZoneID
        ⟨DummyRoute53Client none none none, DummyELBClient none none⟩
        "invalid.elb.amazonaws.com" ((), ()) =
      some { ret := ("", some ("Could not parse ELB hostname: " ++
               "invalid.elb.amazonaws.com is not a valid ELB hostname")),
             events := [], state := ((), ()) } ∧
    AWSClientImpl.GetLoadBalancerHostedZoneID
        ⟨DummyRoute53Client none none none, DummyELBClient none (some "error")⟩
        "testpublic-1111111111.us-east-1.elb.amazonaws.com" ((), ()) =
      some { ret := ("", some ("Could not describe load balancer: " ++ "error")),
             events := [.call (.DescribeLoadBalancers { LoadBalancerNames := [some "testpublic"] })],
             state := ((), ()) } :=
  ⟨(GetLoadBalancerHostedZoneID_query
      ⟨DummyRoute53Client none none none, DummyELBClient none none⟩
      "invalid.elb.amazonaws.com" ((), ())).1
      "invalid.elb.amazonaws.com is not a valid ELB hostname" (by decide),
    ((GetLoadBalancerHostedZoneID_query
      ⟨DummyRoute53Client none none none, DummyELBClient none (some "error")⟩
      "testpublic-1111111111.us-east-1.elb.amazonaws.com" ((), ())).2
      "testpublic" (by decide)).2.2 none "error" () rfl⟩

/-- The cutset `.` of `UpdateDNS` removes exactly the leading `.`
characters. -/
theorem TrimLeft_dot (s : String) :
    strings.TrimLeft s "." = String.mk (s.data.dropWhile (fun c => c == '.')) := by
  unfold strings.TrimLeft
  congr 1
  congr 1
  funext c
  have : ".".data = ['.'] := rfl
  rw [this]
  by_cases hc : c = '.' <;> simp [List.contains, hc]

/-- C19: in live mode, for all arguments and every provider, `UpdateDNS` sends
exactly one request, `ChangeResourceRecordSets`, holding the single change with
action `UPSERT`, record type `A`, alias DNS name `dualstack.` followed by
`elbHostname`, alias hosted zone `elbHostedZoneID`, `EvaluateTargetHealth`
false, record name `domainName` without its leading `.` characters, comment
"Kubernetes Update to Service" and destination `HostedZoneId`
`domainHostedZoneID`; it returns the error of the provider unchanged. -/
theorem UpdateDNS_live {ρ ε : Type} (c : AWSClientImpl ρ ε)
    (elbHostname elbHostedZoneID domainName domainHostedZoneID : String) (s : ρ × ε) :
    (c.UpdateDNS false elbHostname elbHostedZoneID domainName domainHostedZoneID s).events =
      [.call (.ChangeResourceRecordSets
        { ChangeBatch := some
            { Changes :=
                [{ Action := some "UPSERT",
                   ResourceRecordSet := some
                     { AliasTarget := some
                         { DNSName := some ("dualstack." ++ elbHostname),
                           EvaluateTargetHealth := some false,
                           HostedZoneId := some elbHostedZoneID },
                       Name := some (String.mk (domainName.data.dropWhile (fun c => c == '.'))),
                       Type_ := some "A" } }],
              Comment := some "Kubernetes Update to Service" },
          HostedZoneId := some domainHostedZoneID })] ∧
    (c.UpdateDNS false elbHostname elbHostedZoneID domainName domainHostedZoneID s).ret =
      (c.route53.ChangeResourceRecordSets
        (crrsInput elbHostname elbHostedZoneID domainName domainHostedZoneID) s.1).1.2 ∧
    (c.UpdateDNS false elbHostname elbHostedZoneID domainName domainHostedZoneID s).state =
      ((c.route53.ChangeResourceRecordSets
        (crrsInput elbHostname elbHostedZoneID domainName domainHostedZoneID) s.1).2, s.2) := by
  have hin : crrsInput elbHostname elbHostedZoneID domainName domainHostedZoneID =
      { ChangeBatch := some
          { Changes :=
              [{ Action := some "UPSERT",
                 ResourceRecordSet := some
                   { AliasTarget := some
                       { DNSName := some ("dualstack." ++ elbHostname),
                         EvaluateTargetHealth := some false,
                         HostedZoneId := some elbHostedZoneID },
                     Name := some (String.mk (domainName.data.dropWhile (fun c => c == '.'))),
                     Type_ := some "A" } }],
            Comment := some "Kubernetes Update to Service" },
        HostedZoneId := some domainHostedZoneID } := by
    simp [crrsInput, TrimLeft_dot]
  rw [← hin]
  unfold AWSClientImpl.UpdateDNS
  rcases hc : c.route53.ChangeResourceRecordSets
    (crrsInput elbHostname elbHostedZoneID domainName domainHostedZoneID) s.1 with ⟨⟨out, err⟩, r1⟩
  simp [hc]

/-- C19 example: the scenario "Successful update for top-level domain" of
`TestUpdateDNS`, against a provider that fails: the record name of
`.domain.com` is `domain.com`, and the error of the provider is returned. -/
theorem UpdateDNS_live_example :
    AWSClientImpl.UpdateDNS false
        ⟨DummyRoute53Client none none (some "error"), DummyELBClient none none⟩
        "testpublic-1111111111.us-east-1.elb.amazonaws.com" "ELB123" ".domain.com" "DNS123"
        ((), ()) =
      { ret := some "error",
        events := [.call (.ChangeResourceRecordSets
          { ChangeBatch := some
              { Changes :=
                  [{ Action := some "UPSERT",
                     ResourceRecordSet := some
                       { AliasTarget := some
                           { DNSName := some
                               "dualstack.testpublic-1111111111.us-east-1.elb.amazonaws.com",
                             EvaluateTargetHealth := some false,
                             HostedZoneId := some "ELB123" },
                         Name := some "domain.com",
                         Type_ := some "A" } }],
                Comment := some "Kubernetes Update to Service" },
            HostedZoneId := some "DNS123" })],
        state := ((), ()) } := by
  decide

/-- C20: with the dry-run flag set, for all arguments, every provider and
every state, `UpdateDNS` returns nil, sends no request (its only event is the
"DRY RUN" log line) and leaves the states of the providers unchanged. -/
theorem UpdateDNS_dryRun {ρ ε : Type} (c : AWSClientImpl ρ ε)
    (elbHostname elbHostedZoneID domainName domainHostedZoneID : String) (s : ρ × ε) :
    (c.UpdateDNS true elbHostname elbHostedZoneID domainName domainHostedZoneID s).ret = none ∧
    providerCalls
      (c.UpdateDNS true elbHostname elbHostedZoneID domainName domainHostedZoneID s).events = [] ∧
    (c.UpdateDNS true elbHostname elbHostedZoneID domainName domainHostedZoneID s).events =
      [.log ("DRY RUN: We normally would have updated " ++ domainHostedZoneID ++
        " to point to " ++ elbHostedZoneID ++ " (" ++ elbHostname ++ ")")] ∧
    (c.UpdateDNS true elbHostname elbHostedZoneID domainName domainHostedZoneID s).state = s := by
  simp [AWSClientImpl.UpdateDNS, providerCalls]

/-- C20 example: a dry run against a provider whose `ChangeResourceRecordSets`
would fail. -/
theorem UpdateDNS_dryRun_example :
    AWSClientImpl.UpdateDNS true
        ⟨DummyRoute53Client none none (some "error"), DummyELBClient none none⟩
        "testpublic-1111111111.us-east-1.elb.amazonaws.com" "ELB123" "test.domain.com" "DNS123"
        ((), ()) =
      { ret := none,
        events := [.log ("DRY RUN: We normally would have updated DNS123 to point to ELB123 " ++
          "(testpublic-1111111111.us-east-1.elb.amazonaws.com)")],
        state := ((), ()) } := by
  decide

/-! ## Reading a service record -/

/-- C21: `ServiceIngressHostname` is decided by the number of ingress endpoints
of the service: none gives the error "No ingress defined for ELB", more than
one gives "Multiple ingress points found for ELB not supported", and exactly
one gives the hostname of that endpoint, unchanged, with a nil error. -/
theorem ServiceIngressHostname_by_count (service : Service) :
    (service.Status.LoadBalancer.Ingress.length = 0 →
      ServiceIngressHostname service = ("", some "No ingress defined for ELB")) ∧
    (1 < service.Status.LoadBalancer.Ingress.length →
      ServiceIngressHostname service =
        ("", some "Multiple ingress points found for ELB not supported")) ∧
    (∀ ingress, service.Status.LoadBalancer.Ingress = [ingress] →
      ServiceIngressHostname service = (ingress.Hostname, none)) := by
  unfold ServiceIngressHostname
  rcases hI : service.Status.LoadBalancer.Ingress with _ | ⟨i, _ | ⟨j, r⟩⟩
  · exact ⟨fun _ => rfl, fun h => by simp at h, fun x h => by simp at h⟩
  · refine ⟨fun h => by simp at h, fun h => by simp at h, fun x h => ?_⟩
    simp only [List.cons.injEq, and_true] at h
    subst h
    rfl
  · exact ⟨fun h => by simp at h, fun _ => rfl, fun x h => by simp at h⟩

/-- C21 example: the three scenarios of `TestServiceHostname`. -/
theorem ServiceIngressHostname_examples :
    ServiceIngressHostname (testService [] []) = ("", some "No ingress defined for ELB") ∧
    ServiceIngressHostname (testService ["elb.hostname.amazonaws.com"] []) =
      ("elb.hostname.amazonaws.com", none) ∧
    ServiceIngressHostname (testService ["", ""] []) =
      ("", some "Multiple ingress points found for ELB not supported") := by
  decide

/-- What trimming at both ends does: the text is the trimmed text between a
run of trimmed characters on each side, and the trimmed text neither starts
nor ends with such a character. -/
theorem trim_spec (p : Char → Bool) (l : List Char) :
    ∃ a b, l = a ++ ((l.dropWhile p).reverse.dropWhile p).reverse ++ b ∧
      (∀ c ∈ a, p c = true) ∧ (∀ c ∈ b, p c = true) ∧
      (∀ c, (((l.dropWhile p).reverse.dropWhile p).reverse).head? = some c → p c = false) ∧
      (∀ c, (((l.dropWhile p).reverse.dropWhile p).reverse).getLast? = some c →
        p c = false) := by
  have hX : ((l.dropWhile p).reverse.takeWhile p).reverse.reverse ++
      (l.dropWhile p).reverse.dropWhile p = (l.dropWhile p).reverse := by
    rw [List.reverse_reverse]
    exact List.takeWhile_append_dropWhile p _
  have hX2 : l.dropWhile p = ((l.dropWhile p).reverse.dropWhile p).reverse ++
      ((l.dropWhile p).reverse.takeWhile p).reverse := by
    have := congrArg List.reverse hX
    rw [List.reverse_append, List.reverse_reverse, List.reverse_reverse] at this
    exact this.symm
  refine ⟨l.takeWhile p, ((l.dropWhile p).reverse.takeWhile p).reverse, ?_, ?_, ?_, ?_, ?_⟩
  · rw [List.append_assoc, ← hX2]
    exact (List.takeWhile_append_dropWhile p l).symm
  · intro c hc
    exact List.mem_takeWhile_imp hc
  · intro c hc
    exact List.mem_takeWhile_imp (List.mem_reverse.1 hc)
  · intro c hc
    have hhead : (l.dropWhile p).head? = some c := by
      rw [hX2]
      cases ht : ((l.dropWhile p).reverse.dropWhile p).reverse with
      | nil => rw [ht] at hc; simp at hc
      | cons x xs =>
        rw [ht] at hc
        simp only [List.head?_cons, Option.some.injEq] at hc
        simp [hc]
    have := List.head?_dropWhile_not p l
    rw [hhead] at this
    exact this
  · intro c hc
    rw [List.getLast?_reverse] at hc
    have := List.head?_dropWhile_not p (l.dropWhile p).reverse
    rw [hc] at this
    exact this

/-- A text without separator is its own single piece. -/
theorem splitChars_of_not_mem (sep : Char) (l : List Char) (h : sep ∉ l) :
    strings.splitChars sep l = [l] := by
  induction l with
  | nil => rfl
  | cons c cs ih =>
    have hc : ¬ c = sep := fun e => h (by simp [e])
    have hcs : sep ∉ cs := fun e => h (List.mem_cons_of_mem _ e)
    simp [strings.splitChars, hc, ih hcs]

/-- C22: `ServiceDomainNames` fails, with "Annotation 'domainNames' not set
for" followed by the service name, exactly when the service has no
`domainNames` annotation. Otherwise it returns, with a nil error, the pieces
of the annotation value between its `,` characters (no piece holds a `,`, and
the pieces joined by `,` are the value), each without its leading and trailing
white space, in the order of the pieces and with duplicates kept. -/
theorem ServiceDomainNames_spec (service : Service) :
    ((ServiceDomainNames service).2 ≠ none ↔
      service.ObjectMeta.Annotations.lookup "domainNames" = none) ∧
    (service.ObjectMeta.Annotations.lookup "domainNames" = none →
      ServiceDomainNames service =
        ([], some ("Annotation 'domainNames' not set for " ++ service.ObjectMeta.Name))) ∧
    (∀ annotation, service.ObjectMeta.Annotations.lookup "domainNames" = some annotation →
      ∃ pieces : List (List Char),
        strings.joinChars ',' pieces = annotation.data ∧ pieces ≠ [] ∧
        (∀ piece ∈ pieces, ',' ∉ piece) ∧
        ServiceDomainNames service =
          (pieces.map (fun piece => strings.TrimSpace (String.mk piece)), none) ∧
        ∀ piece ∈ pieces, ∃ a b,
          piece = a ++ (strings.TrimSpace (String.mk piece)).data ++ b ∧
          (∀ c ∈ a, strings.isSpace c = true) ∧ (∀ c ∈ b, strings.isSpace c = true) ∧
          (∀ c, (strings.TrimSpace (String.mk piece)).data.head? = some c →
            strings.isSpace c = false) ∧
          (∀ c, (strings.TrimSpace (String.mk piece)).data.getLast? = some c →
            strings.isSpace c = false)) := by
  unfold ServiceDomainNames
  cases hA : service.ObjectMeta.Annotations.lookup "domainNames" with
  | none => simp
  | some annotation =>
    refine ⟨by simp, by simp, ?_⟩
    intro ann hann
    simp only [Option.some.injEq] at hann
    subst hann
    refine ⟨strings.splitChars ',' annotation.data, joinChars_splitChars _ _,
      splitChars_ne_nil _ _, splitChars_no_sep _ _, ?_, ?_⟩
    · simp [strings.Split, List.map_map, Function.comp_def]
    · intro piece _
      exact trim_spec strings.isSpace piece

/-- C22 example: the three scenarios of `TestServiceDomainNames`, and an
annotation with a duplicate. -/
theorem ServiceDomainNames_examples :
    ServiceDomainNames (testService [] [("otherAnnotation", "value")]) =
      ([], some "Annotation 'domainNames' not set for service") ∧
    ServiceDomainNames (testService [] [("domainNames", "some.domain.com")]) =
      (["some.domain.com"], none) ∧
    ServiceDomainNames (testService [] [("domainNames", "some.domain.com, other.domain.com")]) =
      (["some.domain.com", "other.domain.com"], none) ∧
    ServiceDomainNames (testService [] [("domainNames", "b.io , a.io,b.io")]) =
      (["b.io", "a.io", "b.io"], none) := by
  decide

/-- C30: whenever the `domainNames` annotation is present, `ServiceDomainNames`
returns, with a nil error, a non-empty list whose length is one more than the
number of `,` in the annotation value and whose entries neither start nor end
with white space; when the value is empty or made of white space only, the
list is `[""]`. -/
theorem ServiceDomainNames_present (service : Service) ( annotation : String)
    (h : service.ObjectMeta.Annotations.lookup "domainNames" = some annotation) :
    (ServiceDomainNames service).2 = none ∧
    (ServiceDomainNames service).1 ≠ [] ∧
    (ServiceDomainNames service).1.length = annotation.data.count ',' + 1 ∧
    (∀ d ∈ (ServiceDomainNames service).1,
      (∀ c, d.data.head? = some c → strings.isSpace c = false) ∧
      (∀ c, d.data.getLast? = some c → strings.isSpace c = false)) ∧
    ((∀ c ∈ annotation.data, strings.isSpace c = true) →
      ServiceDomainNames service = ([""], none)) := by
  have hlen : ((strings.Split annotation ',').map strings.TrimSpace).length =
      annotation.data.count ',' + 1 := by
    simp [strings.Split, splitChars_length]
  unfold ServiceDomainNames
  simp only [h]
  refine ⟨trivial, ?_, hlen, ?_, ?_⟩
  · intro hnil
    rw [hnil] at hlen
    simp at hlen
  · intro d hd
    simp only [strings.Split, List.map_map, List.mem_map, Function.comp_apply] at hd
    obtain ⟨piece, _, rfl⟩ := hd
    obtain ⟨_, _, _, _, _, hh, hl⟩ := trim_spec strings.isSpace piece
    exact ⟨hh, hl⟩
  · intro hblank
    have hcomma : ',' ∉ annotation.data := by
      intro hmem
      have := hblank ',' hmem
      revert this
      decide
    have hdrop : annotation.data.dropWhile strings.isSpace = [] := by
      rw [List.dropWhile_eq_nil_iff]
      exact hblank
    simp only [strings.Split, splitChars_of_not_mem ',' _ hcomma, List.map_cons, List.map_nil]
    simp [strings.TrimSpace, hdrop]

/-- C30 witness: an empty value, a blank value, and a value with empty
entries. -/
theorem ServiceDomainNames_present_witness :
    ((ServiceDomainNames (testService [] [("domainNames", " \t ")])).2 = none ∧
      (ServiceDomainNames (testService [] [("domainNames", " \t ")])).1 ≠ [] ∧
      (ServiceDomainNames (testService [] [("domainNames", " \t ")])).1.length =
        " \t ".data.count ',' + 1 ∧
      (∀ d ∈ (ServiceDomainNames (testService [] [("domainNames", " \t ")])).1,
        (∀ c, d.data.head? = some c → strings.isSpace c = false) ∧
        (∀ c, d.data.getLast? = some c → strings.isSpace c = false)) ∧
      ((∀ c ∈ " \t ".data, strings.isSpace c = true) →
        ServiceDomainNames (testService [] [("domainNames", " \t ")]) = ([""], none))) ∧
    ServiceDomainNames (testService [] [("domainNames", "")]) = ([""], none) ∧
    ServiceDomainNames (testService [] [("domainNames", " \t ")]) = ([""], none) ∧
    ServiceDomainNames (testService [] [("domainNames", "a.io,, ,b.io,")]) =
      (["a.io", "", "", "b.io", ""], none) :=
  ⟨ServiceDomainNames_present (testService [] [("domainNames", " \t ")]) " \t " rfl,
    by decide, by decide, by decide⟩

/-! ## The listing call of a pass -/

theorem kubeCalls_append (t u : List Event) :
    kubeCalls (t ++ u) = kubeCalls t ++ kubeCalls u := by
  simp [kubeCalls, List.filterMap_append]

theorem kubeCalls_syncDomain {α : Type} (awsClient : AWSClient α) (service : Service)
    (h z d : String) (a : α) : kubeCalls (syncDomain awsClient service h z d a).1 = [] := by
  unfold syncDomain
  rcases hg : awsClient.GetHostedZoneID d a with ⟨⟨zd, _ | err⟩, a1⟩
  · rcases hu : awsClient.UpdateDNS h z d zd a1 with ⟨_ | err, a2⟩ <;> simp [kubeCalls, hu]
  · simp [kubeCalls]

theorem kubeCalls_syncDomains {α : Type} (awsClient : AWSClient α) (service : Service)
    (h z : String) (domainNames : List String) (a : α) :
    kubeCalls (syncDomains awsClient service h z domainNames a).1 = [] := by
  induction domainNames generalizing a with
  | nil => simp [syncDomains, kubeCalls]
  | cons d ds ih => simp [syncDomains, kubeCalls_append, kubeCalls_syncDomain, ih]

theorem kubeCalls_syncService {α : Type} (awsClient : AWSClient α) (service : Service)
    (a : α) : kubeCalls (syncService awsClient service a).1 = [] := by
  unfold syncService
  rcases hI : ServiceIngressHostname service with ⟨h, _ | e1⟩
  · rcases hD : ServiceDomainNames service with ⟨ds, _ | e2⟩
    · rcases hg : awsClient.GetLoadBalancerHostedZoneID h a with ⟨⟨z, _ | e3⟩, a1⟩
      · simp only [hg]
        change kubeCalls ([Event.call (Call.GetLoadBalancerHostedZoneID h)] ++
          (syncDomains awsClient service h z ds a1).1) = []
        rw [kubeCalls_append, kubeCalls_syncDomains]
        simp [kubeCalls]
      · simp [kubeCalls, hg]
    · simp [kubeCalls]
  · simp [kubeCalls]

theorem kubeCalls_syncServices {α : Type} (awsClient : AWSClient α)
    (services : List Service) (a : α) :
    kubeCalls (syncServices awsClient services a).1 = [] := by
  induction services generalizing a with
  | nil => simp [syncServices, kubeCalls]
  | cons sv ss ih => simp [syncServices, kubeCalls_append, kubeCalls_syncService, ih]

/-- C24: every pass of `SyncRoute53DNSRecords` calls `GetDNSServices` exactly
once, with the configured namespace and the selector `dns=route53`, whatever
the cluster client, the AWS client and their states are. -/
theorem SyncRoute53DNSRecords_lists_once {κ α : Type} (ns : String)
    (kubernetesClient : KubernetesClient κ) (awsClient : AWSClient α) (k : κ) (a : α) :
    kubeCalls (SyncRoute53DNSRecords ns kubernetesClient awsClient k a).trace =
      [.GetDNSServices ns "dns=route53"] := by
  unfold SyncRoute53DNSRecords
  rcases hl : kubernetesClient.GetDNSServices ns "dns=route53" k with ⟨⟨services, _ | err⟩, k1⟩
  · simp only [hl]
    change kubeCalls ([Event.call (Call.GetDNSServices ns "dns=route53"),
      Event.log ("Found " ++ toString services.length ++ " DNS services with selector \"" ++
        "dns=route53" ++ "\"")] ++ (syncServices awsClient services a).1) = _
    rw [kubeCalls_append, kubeCalls_syncServices]
    simp [kubeCalls]
  · simp [kubeCalls, hl]

/-! ## The zone matcher, continued -/

/-- C27: zone matching is raw suffix matching: a single zone whose non-empty
name is a suffix of the normalised domain is selected, whether or not the
match is aligned on a label. -/
theorem findMostSpecificZoneForDomain_raw_suffix (domain d : String) (zone : HostedZone)
    (hd : domainWithTrailingDot domain = some d)
    (hs : strings.HasSuffix d (aws.StringValue zone.Name) = true)
    (hp : 0 < len (aws.StringValue zone.Name)) :
    findMostSpecificZoneForDomain domain [zone] = some (some zone, none) := by
  simp [findMostSpecificZoneForDomain, hd, zoneStep, hs, hp]

/-- C27 witness: the domain `xdemo.com` and the single zone `demo.com.`: the
zone is returned, although its labels are not the last labels of the
domain. -/
theorem findMostSpecificZoneForDomain_raw_suffix_witness :
    findMostSpecificZoneForDomain "xdemo.com" [⟨some "demo.com.", some "/hostedzone/D"⟩] =
      some (some ⟨some "demo.com.", some "/hostedzone/D"⟩, none) ∧
    ¬ (strings.Split "demo.com." '.') <:+ (strings.Split "xdemo.com." '.') :=
  ⟨findMostSpecificZoneForDomain_raw_suffix "xdemo.com" "xdemo.com."
      ⟨some "demo.com.", some "/hostedzone/D"⟩ (by decide) (by decide) (by decide),
    by decide⟩

/-- A zone the matcher returns has a non-empty name. -/
theorem findMostSpecificZoneForDomain_name_pos (domain : String) (zones : List HostedZone)
    (z : HostedZone) (e : Option String)
    (h : findMostSpecificZoneForDomain domain zones = some (some z, e)) :
    0 < len (aws.StringValue z.Name) := by
  unfold findMostSpecificZoneForDomain at h
  cases hd : domainWithTrailingDot domain with
  | none => simp [hd] at h
  | some d =>
    simp only [hd] at h
    split at h
    · simp at h
    · rcases zoneLoop_spec d zones with ⟨h0, _⟩ | ⟨pre, z1, post, _, hr, _, hpos, _⟩
      · simp [h0] at h
      · simp only [hr, Option.some.injEq, Prod.mk.injEq] at h
        rw [← h.1]
        exact hpos

/-- C28 (as stated) fails on the empty domain, where the call panics instead
of returning the error, and on the empty list, which holds only zones without
name and yields the error "No zone found for". -/
theorem C28_counterexample :
    findMostSpecificZoneForDomain "" [⟨some "", some "/hostedzone/E"⟩] = none ∧
    findMostSpecificZoneForDomain "" [⟨none, some "/hostedzone/N"⟩] = none ∧
    findMostSpecificZoneForDomain "test.demo.com" [] =
      some (none, some "No zone found for test.demo.com.") := by
  refine ⟨by decide, by decide, by decide⟩

/-- C28 (amended): a zone whose name is empty or missing is never returned by
`findMostSpecificZoneForDomain`; and for a non-empty domain, a non-empty list
made only of such zones yields the error "No zone matches domain d", with `d`
the normalised domain. -/
theorem findMostSpecificZoneForDomain_skips_empty (domain : String) (zones : List HostedZone) :
    (∀ z e, findMostSpecificZoneForDomain domain zones = some (some z, e) →
      aws.StringValue z.Name ≠ "") ∧
    (domain ≠ "" → zones ≠ [] → (∀ z ∈ zones, aws.StringValue z.Name = "") →
      ∃ d, domainWithTrailingDot domain = some d ∧
        findMostSpecificZoneForDomain domain zones =
          some (none, some ("No zone matches domain " ++ d))) := by
  constructor
  · intro z e h hname
    have := findMostSpecificZoneForDomain_name_pos domain zones z e h
    rw [hname] at this
    revert this
    decide
  · intro hne hz hall
    obtain ⟨d, hd⟩ := domainWithTrailingDot_isSome domain hne
    refine ⟨d, hd, ?_⟩
    have hlen : ¬ zones.length < 1 := by
      have := List.length_pos.2 hz
      omega
    rcases zoneLoop_spec d zones with ⟨h0, _⟩ | ⟨pre, z, post, hzs, _, _, hpos, _⟩
    · simp [findMostSpecificZoneForDomain, hd, hlen, h0]
    · have := hall z (by simp [hzs])
      rw [this] at hpos
      exact absurd hpos (by decide)

/-- C28 witness: a list of a zone with the empty name and a zone without
name. -/
theorem findMostSpecificZoneForDomain_skips_empty_witness :
    findMostSpecificZoneForDomain "test.demo.com"
        [⟨some "", some "/hostedzone/E"⟩, ⟨none, some "/hostedzone/N"⟩] =
      some (none, some "No zone matches domain test.demo.com.") := by
  obtain ⟨d, hd, hres⟩ := (findMostSpecificZoneForDomain_skips_empty "test.demo.com"
    [⟨some "", some "/hostedzone/E"⟩, ⟨none, some "/hostedzone/N"⟩]).2
    (by decide) (by decide) (by decide)
  have hnorm : domainWithTrailingDot "test.demo.com" = some "test.demo.com." := by decide
  rw [hnorm] at hd
  cases hd
  exact hres

/-! ## `GetHostedZoneID`, continued -/

/-- The split of a text always has a last piece. -/
theorem Split_getLast_ne_none (s : String) (sep : Char) :
    (strings.Split s sep).getLast? ≠ none := by
  obtain ⟨last, hlast, _⟩ := splitChars_getLast sep s.data
  simp [strings.Split, List.getLast?_map, hlast]

/-- A domain that `getTLD` accepts has at least three labels. -/
theorem labels_of_getTLD (domain : String) (h : (getTLD domain).2 = none) :
    3 ≤ (strings.Split domain '.').length := by
  by_contra hlt
  have hlt3 : (strings.Split domain '.').length < 3 := by omega
  simp [getTLD, hlt3] at h

/-- When `getTLD` accepts the domain with result `tld`, the one request that
`GetHostedZoneID` sends before it returns is `ListHostedZonesByName` with
`DNSName = tld`, and it panics only when the provider answers that request
with a nil output and a nil error. -/
theorem GetHostedZoneID_query {ρ ε : Type} (c : AWSClientImpl ρ ε) (domain tld : String)
    (s : ρ × ε) (htld : getTLD domain = (tld, none)) :
    (∀ o, c.GetHostedZoneID domain s = some o →
      o.events = [.call (.ListHostedZonesByName { DNSName := some tld })] ∧
      o.state = ((c.route53.ListHostedZonesByName { DNSName := some tld } s.1).2, s.2)) ∧
    (c.GetHostedZoneID domain s = none ↔
      (c.route53.ListHostedZonesByName { DNSName := some tld } s.1).1 = (none, none)) := by
  have hne : domain ≠ "" :=
    ne_empty_of_labels domain (labels_of_getTLD domain (by rw [htld]))
  unfold AWSClientImpl.GetHostedZoneID
  simp only [htld]
  rcases hl : c.route53.ListHostedZonesByName { DNSName := some tld } s.1 with
    ⟨⟨out, err⟩, r1⟩
  cases err with
  | some e =>
    cases out <;>
      exact ⟨fun o ho => by simp only [Option.some.injEq] at ho; subst ho; exact ⟨rfl, rfl⟩,
        by simp⟩
  | none =>
    cases out with
    | none => exact ⟨fun o ho => by simp at ho, by simp⟩
    | some hzOut =>
      simp only
      rcases hf : findMostSpecificZoneForDomain domain hzOut.HostedZones with _ | ⟨z, e⟩
      · exact absurd hf (findMostSpecificZoneForDomain_isSome domain _ hne)
      · rcases findMostSpecificZoneForDomain_shape domain _ z e hf with ⟨hz, he⟩ | ⟨hz, he⟩
        · subst hz
          cases e with
          | none => exact absurd rfl he
          | some err =>
            exact ⟨fun o ho => by simp only [Option.some.injEq] at ho; subst ho; exact ⟨rfl, rfl⟩,
              by simp⟩
        · subst he
          cases z with
          | none => exact absurd rfl hz
          | some zone =>
            simp only
            cases hp : (strings.Split (aws.StringValue zone.Id) '/').getLast? with
            | none => exact absurd hp (Split_getLast_ne_none _ _)
            | some zoneId =>
              exact ⟨fun o ho => by
                simp only [Option.some.injEq] at ho; subst ho; exact ⟨rfl, rfl⟩, by simp⟩

/-- C26: `GetHostedZoneID` never indexes out of range. A domain that `getTLD`
accepts is not empty, so `domainWithTrailingDot` and the zone matcher do not
panic on it; the split of a zone `Id` on `/` always has a last element; and so
for every domain and every provider, the method returns unless the provider
answers the request with a nil output and a nil error. -/
theorem GetHostedZoneID_index_safe {ρ ε : Type} (c : AWSClientImpl ρ ε) (domain : String)
    (s : ρ × ε) :
    ((getTLD domain).2 = none →
      domain ≠ "" ∧ domainWithTrailingDot domain ≠ none ∧
      ∀ zones, findMostSpecificZoneForDomain domain zones ≠ none) ∧
    (∀ zoneId : String, (strings.Split zoneId '/').getLast? ≠ none) ∧
    (c.GetHostedZoneID domain s = none ↔
      (getTLD domain).2 = none ∧
      (c.route53.ListHostedZonesByName { DNSName := some (getTLD domain).1 } s.1).1 =
        (none, none)) := by
  refine ⟨?_, fun zoneId => Split_getLast_ne_none zoneId '/', ?_⟩
  · intro h
    have hne := ne_empty_of_labels domain (labels_of_getTLD domain h)
    obtain ⟨d, hd⟩ := domainWithTrailingDot_isSome domain hne
    exact ⟨hne, by simp [hd], fun zones => findMostSpecificZoneForDomain_isSome domain zones hne⟩
  · rcases hg : getTLD domain with ⟨tld, _ | terr⟩
    · have := (GetHostedZoneID_query c domain tld s hg).2
      simp only [true_and]
      exact this
    · simp [AWSClientImpl.GetHostedZoneID, hg]

/-- C26 example: the empty domain and a domain of two labels are rejected
before any request, and a zone `Id` without `/` is returned whole. -/
theorem GetHostedZoneID_index_safe_examples :
    AWSClientImpl.GetHostedZoneID
        ⟨DummyRoute53Client (some ⟨[]⟩) none none, DummyELBClient none none⟩ "" ((), ()) =
      some { ret := ("", some ("Domain  is invalid - it should be a fully " ++
               "qualified domain name and subdomain (i.e. test.example.com)")),
             events := [], state := ((), ()) } ∧
    (AWSClientImpl.GetHostedZoneID
        ⟨DummyRoute53Client (some ⟨[⟨some "com.", some "ABC123"⟩]⟩) none none,
          DummyELBClient none none⟩ "a.b.com" ((), ())).map (fun o => o.ret) =
      some ("ABC123", none) ∧
    (AWSClientImpl.GetHostedZoneID
        ⟨DummyRoute53Client (some ⟨[⟨some "com.", none⟩]⟩) none none,
          DummyELBClient none none⟩ "a.b.com" ((), ())).map (fun o => o.ret) =
      some ("", none) := by
  refine ⟨by decide, by decide, by decide⟩

/-- Splitting a text that ends with the separator gives the pieces of the text
before it, and an empty last piece. -/
theorem splitChars_append_sep (sep : Char) (l : List Char) :
    strings.splitChars sep (l ++ [sep]) = strings.splitChars sep l ++ [[]] := by
  induction l with
  | nil => simp [strings.splitChars]
  | cons c cs ih =>
    by_cases h : c = sep
    · subst h
      simp [strings.splitChars, ih]
    · cases hs : strings.splitChars sep cs with
      | nil => exact absurd hs (splitChars_ne_nil sep cs)
      | cons q qs =>
        rw [hs] at ih
        simp [strings.splitChars, h, ih, hs]

/-- C29: `getTLD` does not normalise a trailing dot. For every domain that ends
with `.` and has at least 3 dot-separated segments, the last segment is empty
and the result is the segment before it, which is the last label of the
domain without its final dot, followed by `.`; and this result is the `DNSName`
of the request `GetHostedZoneID` sends. -/
theorem getTLD_trailing_dot {ρ ε : Type} (c : AWSClientImpl ρ ε) (s : ρ × ε)
    (domain body : String) (hb : domain = body ++ ".")
    (h3 : 3 ≤ (strings.Split domain '.').length) :
    ∃ pre a, strings.Split domain '.' = pre ++ [a, ""] ∧
      (strings.Split body '.').getLast? = some a ∧
      getTLD domain = (a ++ ".", none) ∧
      (∀ o, c.GetHostedZoneID domain s = some o →
        o.events = [.call (.ListHostedZonesByName { DNSName := some (a ++ ".") })]) ∧
      (c.GetHostedZoneID domain s = none ↔
        (c.route53.ListHostedZonesByName { DNSName := some (a ++ ".") } s.1).1 =
          (none, none)) := by
  obtain ⟨pre, a, b, hpre, hsplit, hres⟩ := getTLD_parts domain h3
  have hdata : domain.data = body.data ++ ['.'] := by rw [hb]; rfl
  have hsplit2 := splitChars_append_sep '.' body.data
  rw [← hdata, hsplit] at hsplit2
  have e1 : pre ++ [a, b] = (pre ++ [a]) ++ [b] := by simp
  rw [e1] at hsplit2
  obtain ⟨hbody, hb2⟩ := List.append_inj' hsplit2 rfl
  simp only [List.cons.injEq, and_true] at hb2
  subst hb2
  have hres2 : getTLD domain = (String.mk a ++ ".", none) := by
    rw [hres]
    apply Prod.ext
    · apply String.ext
      simp [String.data_append]
    · rfl
  have hq := GetHostedZoneID_query c domain (String.mk a ++ ".") s hres2
  refine ⟨pre.map String.mk, String.mk a, ?_, ?_, hres2, fun o ho => (hq.1 o ho).1, hq.2⟩
  · simp [strings.Split, hsplit]
  · simp [strings.Split, ← hbody, List.getLast?_map]

/-- C29 witness: the domain `test.example.com.` gives `com.`, which is the
`DNSName` of the request. -/
theorem getTLD_trailing_dot_witness :
    getTLD "test.example.com." = ("com.", none) ∧
    (AWSClientImpl.GetHostedZoneID
        ⟨DummyRoute53Client (some ⟨[⟨some "example.com.", some "/hostedzone/ABC123"⟩]⟩) none none,
          DummyELBClient none none⟩ "test.example.com." ((), ())).map (fun o => o.events) =
      some [.call (.ListHostedZonesByName { DNSName := some "com." })] := by
  obtain ⟨pre, a, hsplit, hlast, hres, hev, _⟩ := getTLD_trailing_dot
    ⟨DummyRoute53Client (some ⟨[⟨some "example.com.", some "/hostedzone/ABC123"⟩]⟩) none none,
      DummyELBClient none none⟩ ((), ()) "test.example.com." "test.example.com" (by decide)
    (by decide)
  have ha : a = "com" := by
    have h2 : (strings.Split "test.example.com" '.').getLast? = some "com" := by decide
    rw [h2] at hlast
    exact (Option.some.inj hlast).symm
  subst ha
  exact ⟨hres, by decide⟩

/-! ## The zone matcher and the order of the zones -/

theorem utf8ByteSize_go_append (x y : List Char) :
    String.utf8ByteSize.go (x ++ y) = String.utf8ByteSize.go x + String.utf8ByteSize.go y := by
  induction x with
  | nil => simp [String.utf8ByteSize.go]
  | cons c cs ih =>
    show String.utf8ByteSize.go (cs ++ y) + c.utf8Size =
      String.utf8ByteSize.go cs + c.utf8Size + String.utf8ByteSize.go y
    rw [ih]
    omega

theorem utf8ByteSize_go_eq_zero (x : List Char) (h : String.utf8ByteSize.go x = 0) :
    x = [] := by
  cases x with
  | nil => rfl
  | cons c cs =>
    have := c.utf8Size_pos
    simp only [String.utf8ByteSize.go] at h
    omega

/-- Two suffixes of one string that have the same length in bytes are
equal. -/
theorem suffix_eq_of_len_eq (a b d : String) (ha : a.data <:+ d.data) (hb : b.data <:+ d.data)
    (hlen : len a = len b) : a = b := by
  have key : ∀ u v : List Char, u <:+ v →
      String.utf8ByteSize.go u = String.utf8ByteSize.go v → u = v := by
    intro u v huv hsz
    obtain ⟨t, ht⟩ := huv
    rw [← ht, utf8ByteSize_go_append] at hsz
    have h0 : String.utf8ByteSize.go t = 0 := by omega
    rw [utf8ByteSize_go_eq_zero t h0] at ht
    simpa using ht
  have hsz : String.utf8ByteSize.go a.data = String.utf8ByteSize.go b.data := hlen
  apply String.ext
  rcases List.suffix_or_suffix_of_suffix ha hb with h | h
  · exact key _ _ h hsz
  · exact (key _ _ h hsz.symm).symm

/-- What the loop of the zone matcher selects, without the order of the list:
nothing when no zone with a non-empty name matches, and otherwise a matching
zone of the list with a name at least as long as every matching name. -/
theorem zoneLoop_max (d : String) (zones : List HostedZone) :
    ((zones.foldl (zoneStep d) (none, 0)).1 = none ∧
      ∀ z ∈ zones, strings.HasSuffix d (aws.StringValue z.Name) = true →
        len (aws.StringValue z.Name) = 0) ∨
    (∃ z ∈ zones, (zones.foldl (zoneStep d) (none, 0)).1 = some z ∧
      strings.HasSuffix d (aws.StringValue z.Name) = true ∧
      0 < len (aws.StringValue z.Name) ∧
      ∀ y ∈ zones, strings.HasSuffix d (aws.StringValue y.Name) = true →
        len (aws.StringValue y.Name) ≤ len (aws.StringValue z.Name)) := by
  rcases zoneLoop_spec d zones with ⟨h0, hall⟩ | ⟨pre, z, post, hz, hr, hm, hpos, hpre, hpost⟩
  · left
    exact ⟨by rw [h0], hall⟩
  · right
    refine ⟨z, by simp [hz], by rw [hr], hm, hpos, ?_⟩
    intro y hy hmy
    rw [hz] at hy
    rcases List.mem_append.1 hy with hy | hy
    · exact le_of_lt (hpre y hy hmy)
    · rcases List.mem_cons.1 hy with hy | hy
      · subst hy; exact le_refl _
      · exact hpost y hy hmy

/-- C25: for every domain and every zone list whose zone names are pairwise
distinct, `findMostSpecificZoneForDomain` gives the same result (the selected
zone, the error, or the panic on the empty domain) on every permutation of the
list. -/
theorem findMostSpecificZoneForDomain_perm (domain : String) (zones zones1 : List HostedZone)
    (hperm : zones.Perm zones1)
    (hnodup : (zones.map (fun z => aws.StringValue z.Name)).Nodup) :
    findMostSpecificZoneForDomain domain zones1 = findMostSpecificZoneForDomain domain zones := by
  unfold findMostSpecificZoneForDomain
  cases hd : domainWithTrailingDot domain with
  | none => rfl
  | some d =>
    simp only [hperm.length_eq]
    have hfold : (zones1.foldl (zoneStep d) (none, 0)).1 =
        (zones.foldl (zoneStep d) (none, 0)).1 := by
      rcases zoneLoop_max d zones with ⟨h0, hall⟩ | ⟨z, hz, hr, hm, hpos, hmax⟩
      · rcases zoneLoop_max d zones1 with ⟨h1, _⟩ | ⟨z1, hz1, _, hm1, hpos1, _⟩
        · rw [h0, h1]
        · have := hall z1 (hperm.mem_iff.2 hz1) hm1
          omega
      · rcases zoneLoop_max d zones1 with ⟨_, hall1⟩ | ⟨z1, hz1, hr1, hm1, _, hmax1⟩
        · have := hall1 z (hperm.mem_iff.1 hz) hm
          omega
        · have hle1 := hmax z1 (hperm.mem_iff.2 hz1) hm1
          have hle2 := hmax1 z (hperm.mem_iff.1 hz) hm
          have hname : aws.StringValue z1.Name = aws.StringValue z.Name :=
            suffix_eq_of_len_eq _ _ d ((hasSuffix_iff _ _).1 hm1) ((hasSuffix_iff _ _).1 hm)
              (by omega)
          have hzz : z1 = z :=
            List.inj_on_of_nodup_map hnodup (hperm.mem_iff.2 hz1) hz hname
          rw [hr, hr1, hzz]
    rw [hfold]

/-- C25 witness: the zones `demo.com.` and `sub.demo.com.` in both orders. -/
theorem findMostSpecificZoneForDomain_perm_witness :
    findMostSpecificZoneForDomain "test.sub.demo.com"
        [⟨some "sub.demo.com.", some "/hostedzone/S"⟩, ⟨some "demo.com.", some "/hostedzone/D"⟩] =
      findMostSpecificZoneForDomain "test.sub.demo.com"
        [⟨some "demo.com.", some "/hostedzone/D"⟩, ⟨some "sub.demo.com.", some "/hostedzone/S"⟩] ∧
    findMostSpecificZoneForDomain "test.sub.demo.com"
        [⟨some "sub.demo.com.", some "/hostedzone/S"⟩, ⟨some "demo.com.", some "/hostedzone/D"⟩] =
      some (some ⟨some "sub.demo.com.", some "/hostedzone/S"⟩, none) :=
  ⟨findMostSpecificZoneForDomain_perm "test.sub.demo.com"
      [⟨some "demo.com.", some "/hostedzone/D"⟩, ⟨some "sub.demo.com.", some "/hostedzone/S"⟩]
      [⟨some "sub.demo.com.", some "/hostedzone/S"⟩, ⟨some "demo.com.", some "/hostedzone/D"⟩]
      (List.Perm.swap _ _ _) (by decide),
    by decide⟩

/-! ## Two passes side by side -/

/-- Two AWS clients run one iteration of the inner loop from related states.
When the zone lookups return the same values and every method keeps the states
related, the states stay related; and when the first client ends in a state
that is `G`, where `G` is handed back by every method and forces the updates of
the two clients to return the same value, the two iterations produce the same
events. -/
theorem syncDomain_guard {α β : Type} (c1 : AWSClient α) (c2 : AWSClient β)
    (R : α → β → Prop) (G : α → Prop)
    (hHZ : ∀ d a b, R a b →
      (c1.GetHostedZoneID d a).1 = (c2.GetHostedZoneID d b).1 ∧
      R (c1.GetHostedZoneID d a).2 (c2.GetHostedZoneID d b).2 ∧
      (G (c1.GetHostedZoneID d a).2 → G a))
    (hUp : ∀ h z d zd a b, R a b →
      R (c1.UpdateDNS h z d zd a).2 (c2.UpdateDNS h z d zd b).2 ∧
      (G (c1.UpdateDNS h z d zd a).2 →
        G a ∧ (c1.UpdateDNS h z d zd a).1 = (c2.UpdateDNS h z d zd b).1))
    (service : Service) (h z d : String) (a : α) (b : β) (hab : R a b) :
    R (syncDomain c1 service h z d a).2 (syncDomain c2 service h z d b).2 ∧
    (G (syncDomain c1 service h z d a).2 →
      G a ∧ (syncDomain c1 service h z d a).1 = (syncDomain c2 service h z d b).1) := by
  obtain ⟨hret, hR, hGm⟩ := hHZ d a b hab
  rcases hg1 : c1.GetHostedZoneID d a with ⟨⟨zd1, e1⟩, a1⟩
  rcases hg2 : c2.GetHostedZoneID d b with ⟨⟨zd2, e2⟩, b1⟩
  rw [hg1, hg2] at hret hR
  rw [hg1] at hGm
  simp only [Prod.mk.injEq] at hret
  obtain ⟨hz, he⟩ := hret
  subst hz he
  simp only [syncDomain, hg1, hg2]
  cases e1 with
  | some err => exact ⟨hR, fun hG => ⟨hGm hG, rfl⟩⟩
  | none =>
    obtain ⟨hR2, hG2⟩ := hUp h z d zd1 a1 b1 hR
    rcases hu1 : c1.UpdateDNS h z d zd1 a1 with ⟨r1, a2⟩
    rcases hu2 : c2.UpdateDNS h z d zd1 b1 with ⟨r2, b2⟩
    rw [hu1, hu2] at hR2 hG2
    simp only at hR2 hG2
    simp only [hu1, hu2]
    cases r1 with
    | none =>
      cases r2 with
      | none => exact ⟨hR2, fun hG => ⟨hGm (hG2 hG).1, rfl⟩⟩
      | some v2 => exact ⟨hR2, fun hG => absurd (hG2 hG).2 (by simp)⟩
    | some v1 =>
      cases r2 with
      | none => exact ⟨hR2, fun hG => absurd (hG2 hG).2 (by simp)⟩
      | some v2 =>
        refine ⟨hR2, fun hG => ?_⟩
        obtain ⟨hGa, hr⟩ := hG2 hG
        simp only [Option.some.injEq] at hr
        subst hr
        exact ⟨hGm hGa, rfl⟩

theorem syncDomains_guard {α β : Type} (c1 : AWSClient α) (c2 : AWSClient β)
    (R : α → β → Prop) (G : α → Prop)
    (hHZ : ∀ d a b, R a b →
      (c1.GetHostedZoneID d a).1 = (c2.GetHostedZoneID d b).1 ∧
      R (c1.GetHostedZoneID d a).2 (c2.GetHostedZoneID d b).2 ∧
      (G (c1.GetHostedZoneID d a).2 → G a))
    (hUp : ∀ h z d zd a b, R a b →
      R (c1.UpdateDNS h z d zd a).2 (c2.UpdateDNS h z d zd b).2 ∧
      (G (c1.UpdateDNS h z d zd a).2 →
        G a ∧ (c1.UpdateDNS h z d zd a).1 = (c2.UpdateDNS h z d zd b).1))
    (service : Service) (h z : String) (domainNames : List String) (a : α) (b : β)
    (hab : R a b) :
    R (syncDomains c1 service h z domainNames a).2
      (syncDomains c2 service h z domainNames b).2 ∧
    (G (syncDomains c1 service h z domainNames a).2 →
      G a ∧ (syncDomains c1 service h z domainNames a).1 =
        (syncDomains c2 service h z domainNames b).1) := by
  induction domainNames generalizing a b with
  | nil => exact ⟨hab, fun hG => ⟨hG, rfl⟩⟩
  | cons d ds ih =>
    obtain ⟨hR1, hG1⟩ := syncDomain_guard c1 c2 R G hHZ hUp service h z d a b hab
    obtain ⟨hR2, hG2⟩ := ih _ _ hR1
    simp only [syncDomains]
    refine ⟨hR2, fun hG => ?_⟩
    obtain ⟨hGmid, ht2⟩ := hG2 hG
    obtain ⟨hGa, ht1⟩ := hG1 hGmid
    exact ⟨hGa, by rw [ht1, ht2]⟩

/-- The same for the outer loop, when the load-balancer lookups also return the
same values and keep the states related. -/
theorem syncServices_guard {α β : Type} (c1 : AWSClient α) (c2 : AWSClient β)
    (R : α → β → Prop) (G : α → Prop)
    (hHZ : ∀ d a b, R a b →
      (c1.GetHostedZoneID d a).1 = (c2.GetHostedZoneID d b).1 ∧
      R (c1.GetHostedZoneID d a).2 (c2.GetHostedZoneID d b).2 ∧
      (G (c1.GetHostedZoneID d a).2 → G a))
    (hLB : ∀ h a b, R a b →
      (c1.GetLoadBalancerHostedZoneID h a).1 = (c2.GetLoadBalancerHostedZoneID h b).1 ∧
      R (c1.GetLoadBalancerHostedZoneID h a).2 (c2.GetLoadBalancerHostedZoneID h b).2 ∧
      (G (c1.GetLoadBalancerHostedZoneID h a).2 → G a))
    (hUp : ∀ h z d zd a b, R a b →
      R (c1.UpdateDNS h z d zd a).2 (c2.UpdateDNS h z d zd b).2 ∧
      (G (c1.UpdateDNS h z d zd a).2 →
        G a ∧ (c1.UpdateDNS h z d zd a).1 = (c2.UpdateDNS h z d zd b).1))
    (services : List Service) (a : α) (b : β) (hab : R a b) :
    R (syncServices c1 services a).2 (syncServices c2 services b).2 ∧
    (G (syncServices c1 services a).2 →
      G a ∧ (syncServices c1 services a).1 = (syncServices c2 services b).1) := by
  induction services generalizing a b with
  | nil => exact ⟨hab, fun hG => ⟨hG, rfl⟩⟩
  | cons sv rest ih =>
    have hsv : R (syncService c1 sv a).2 (syncService c2 sv b).2 ∧
        (G (syncService c1 sv a).2 →
          G a ∧ (syncService c1 sv a).1 = (syncService c2 sv b).1) := by
      rcases hI : ServiceIngressHostname sv with ⟨h, _ | e1⟩
      · rcases hD : ServiceDomainNames sv with ⟨ds, _ | e2⟩
        · obtain ⟨hret, hR, hGm⟩ := hLB h a b hab
          rcases hg1 : c1.GetLoadBalancerHostedZoneID h a with ⟨⟨z1, e3⟩, a1⟩
          rcases hg2 : c2.GetLoadBalancerHostedZoneID h b with ⟨⟨z2, e4⟩, b1⟩
          rw [hg1, hg2] at hret hR
          rw [hg1] at hGm
          simp only [Prod.mk.injEq] at hret
          obtain ⟨hz, he⟩ := hret
          subst hz he
          simp only [syncService, hI, hD, hg1, hg2]
          cases e3 with
          | none =>
            obtain ⟨hR1, hG1⟩ := syncDomains_guard c1 c2 R G hHZ hUp sv h z1 ds a1 b1 hR
            refine ⟨hR1, fun hG => ?_⟩
            obtain ⟨hGa1, ht⟩ := hG1 hG
            exact ⟨hGm hGa1, by simp only [ht]⟩
          | some err => exact ⟨hR, fun hG => ⟨hGm hG, rfl⟩⟩
        · simp only [syncService, hI, hD]
          exact ⟨hab, fun hG => ⟨hG, trivial⟩⟩
      · simp only [syncService, hI]
        exact ⟨hab, fun hG => ⟨hG, trivial⟩⟩
    obtain ⟨hR1, hG1⟩ := hsv
    obtain ⟨hR2, hG2⟩ := ih _ _ hR1
    simp only [syncServices]
    refine ⟨hR2, fun hG => ?_⟩
    obtain ⟨hGmid, ht2⟩ := hG2 hG
    obtain ⟨hGa, ht1⟩ := hG1 hGmid
    exact ⟨hGa, by rw [ht1, ht2]⟩

/-! ## Passes over `AWSClientImpl`: dry run and live mode -/

theorem lookupQueries_append (t u : List ProviderEvent) :
    lookupQueries (t ++ u) = lookupQueries t ++ lookupQueries u := by
  simp [lookupQueries, List.filterMap_append]

theorem changeRequests_append (t u : List ProviderEvent) :
    changeRequests (t ++ u) = changeRequests t ++ changeRequests u := by
  simp [changeRequests, List.filterMap_append]

/-- Two calls of `GetHostedZoneID`, from zone-provider states in which the
listing gives the same answers: with a provider that never answers with a nil
output and a nil error both calls return, with the same values and the same
events, none of them a change request; and a relation `P` that holds between
the two states, and between the states the listing leaves, holds between the
states the calls leave. -/
theorem GetHostedZoneID_rel {ρ ε : Type} (c : AWSClientImpl ρ ε) (domain : String)
    (s s1 : ρ × ε) (P : ρ → ρ → Prop)
    (hsdk : ∀ input r, (c.route53.ListHostedZonesByName input r).1 ≠ (none, none))
    (hans : ∀ input, (c.route53.ListHostedZonesByName input s.1).1 =
      (c.route53.ListHostedZonesByName input s1.1).1)
    (hP0 : P s.1 s1.1)
    (hP : ∀ input, P (c.route53.ListHostedZonesByName input s.1).2
      (c.route53.ListHostedZonesByName input s1.1).2) :
    ∃ o o1, c.GetHostedZoneID domain s = some o ∧ c.GetHostedZoneID domain s1 = some o1 ∧
      o.ret = o1.ret ∧ o.events = o1.events ∧ P o.state.1 o1.state.1 ∧
      changeRequests o.events = [] := by
  rcases hg : getTLD domain with ⟨tld, _ | terr⟩
  · have hne : domain ≠ "" :=
      ne_empty_of_labels domain (labels_of_getTLD domain (by rw [hg]))
    have hl := hans { DNSName := some tld }
    have hp := hP { DNSName := some tld }
    have hnn := hsdk { DNSName := some tld } s.1
    rcases h1 : c.route53.ListHostedZonesByName { DNSName := some tld } s.1 with
      ⟨⟨out, err⟩, r1⟩
    rcases h2 : c.route53.ListHostedZonesByName { DNSName := some tld } s1.1 with
      ⟨⟨out2, err2⟩, r2⟩
    rw [h1, h2] at hl hp
    rw [h1] at hnn
    simp only [Prod.mk.injEq] at hl
    obtain ⟨ho, he⟩ := hl
    subst ho he
    simp only [AWSClientImpl.GetHostedZoneID, hg, h1, h2]
    cases err with
    | some e =>
      cases out <;> exact ⟨_, _, rfl, rfl, rfl, rfl, hp, by simp [changeRequests]⟩
    | none =>
      cases out with
      | none => exact absurd rfl hnn
      | some hzOut =>
        simp only
        rcases hf : findMostSpecificZoneForDomain domain hzOut.HostedZones with _ | ⟨z, e⟩
        · exact absurd hf (findMostSpecificZoneForDomain_isSome domain _ hne)
        · rcases findMostSpecificZoneForDomain_shape domain _ z e hf with ⟨hz, he⟩ | ⟨hz, he⟩
          · subst hz
            cases e with
            | none => exact absurd rfl he
            | some err => exact ⟨_, _, rfl, rfl, rfl, rfl, hp, by simp [changeRequests]⟩
          · subst he
            cases z with
            | none => exact absurd rfl hz
            | some zone =>
              simp only
              cases hlast : (strings.Split (aws.StringValue zone.Id) '/').getLast? with
              | none => exact absurd hlast (Split_getLast_ne_none _ _)
              | some zoneId =>
                exact ⟨_, _, rfl, rfl, rfl, rfl, hp, by simp [changeRequests]⟩
  · simp only [AWSClientImpl.GetHostedZoneID, hg]
    exact ⟨_, _, rfl, rfl, rfl, rfl, hP0, by simp [changeRequests]⟩

/-- The same for two calls of `GetLoadBalancerHostedZoneID` and the
load-balancer provider. -/
theorem GetLoadBalancerHostedZoneID_rel {ρ ε : Type} (c : AWSClientImpl ρ ε)
    (hostname : String) (s s1 : ρ × ε) (P : ε → ε → Prop)
    (hsdk : ∀ input e, (c.elb.DescribeLoadBalancers input e).1 ≠ (none, none))
    (hans : ∀ input, (c.elb.DescribeLoadBalancers input s.2).1 =
      (c.elb.DescribeLoadBalancers input s1.2).1)
    (hP0 : P s.2 s1.2)
    (hP : ∀ input, P (c.elb.DescribeLoadBalancers input s.2).2
      (c.elb.DescribeLoadBalancers input s1.2).2) :
    ∃ o o1, c.GetLoadBalancerHostedZoneID hostname s = some o ∧
      c.GetLoadBalancerHostedZoneID hostname s1 = some o1 ∧
      o.ret = o1.ret ∧ o.events = o1.events ∧ P o.state.2 o1.state.2 ∧
      changeRequests o.events = [] := by
  rcases hp : loadBalancerNameFromHostname hostname with ⟨name, _ | perr⟩
  · have hl := hans { LoadBalancerNames := [some name] }
    have hq := hP { LoadBalancerNames := [some name] }
    have hnn := hsdk { LoadBalancerNames := [some name] } s.2
    rcases h1 : c.elb.DescribeLoadBalancers { LoadBalancerNames := [some name] } s.2 with
      ⟨⟨out, err⟩, e1⟩
    rcases h2 : c.elb.DescribeLoadBalancers { LoadBalancerNames := [some name] } s1.2 with
      ⟨⟨out2, err2⟩, e2⟩
    rw [h1, h2] at hl hq
    rw [h1] at hnn
    simp only [Prod.mk.injEq] at hl
    obtain ⟨ho, he⟩ := hl
    subst ho he
    simp only [AWSClientImpl.GetLoadBalancerHostedZoneID, hp, h1, h2]
    cases err with
    | some e =>
      cases out <;> exact ⟨_, _, rfl, rfl, rfl, rfl, hq, by simp [changeRequests]⟩
    | none =>
      cases out with
      | none => exact absurd rfl hnn
      | some resp =>
        simp only
        rcases hd : resp.LoadBalancerDescriptions with _ | ⟨d0, _ | ⟨d1, rest⟩⟩ <;>
          exact ⟨_, _, rfl, rfl, rfl, rfl, hq, by simp [changeRequests]⟩
  · simp only [AWSClientImpl.GetLoadBalancerHostedZoneID, hp]
    exact ⟨_, _, rfl, rfl, rfl, rfl, hP0, by simp [changeRequests]⟩

/-- A live pass and a dry run over the same `AWSClientImpl` and the same world
of providers. `sim` relates the world of the live pass to the world of the dry
run: the lookups answer alike in related worlds and keep them related, and a
change request in the world of the live pass keeps them related. Then from
related states the two passes end in related states, with the same lookup
requests, no change request in the dry run and no panic; and when every change
request of the live pass succeeded, the two passes produce the same events. -/
theorem syncServices_live_dryRun {σ : Type} (c : AWSClientImpl σ σ) (sim : σ → σ → Prop)
    (hsdk : (∀ input r, (c.route53.ListHostedZonesByName input r).1 ≠ (none, none)) ∧
      (∀ input e, (c.elb.DescribeLoadBalancers input e).1 ≠ (none, none)))
    (hzones : ∀ input u v, sim u v →
      (c.route53.ListHostedZonesByName input u).1 =
        (c.route53.ListHostedZonesByName input v).1 ∧
      sim (c.route53.ListHostedZonesByName input u).2
        (c.route53.ListHostedZonesByName input v).2)
    (hlbs : ∀ input u v, sim u v →
      (c.elb.DescribeLoadBalancers input u).1 = (c.elb.DescribeLoadBalancers input v).1 ∧
      sim (c.elb.DescribeLoadBalancers input u).2 (c.elb.DescribeLoadBalancers input v).2)
    (hchange : ∀ input u v, sim u v → sim (c.route53.ChangeResourceRecordSets input u).2 v)
    (services : List Service) (x y : ImplState σ)
    (hxy : sim x.world y.world ∧ lookupQueries x.events = lookupQueries y.events ∧
      changeRequests y.events = [] ∧
      (changeRequests x.events).length = x.changeErrors.length ∧
      x.panicked = false ∧ y.panicked = false) :
    (sim (syncServices (c.toAWSClient false) services x).2.world
        (syncServices (c.toAWSClient true) services y).2.world ∧
      lookupQueries (syncServices (c.toAWSClient false) services x).2.events =
        lookupQueries (syncServices (c.toAWSClient true) services y).2.events ∧
      changeRequests (syncServices (c.toAWSClient true) services y).2.events = [] ∧
      (changeRequests (syncServices (c.toAWSClient false) services x).2.events).length =
        (syncServices (c.toAWSClient false) services x).2.changeErrors.length ∧
      (syncServices (c.toAWSClient false) services x).2.panicked = false ∧
      (syncServices (c.toAWSClient true) services y).2.panicked = false) ∧
    ((∀ e ∈ (syncServices (c.toAWSClient false) services x).2.changeErrors, e = none) →
      (∀ e ∈ x.changeErrors, e = none) ∧
      (syncServices (c.toAWSClient false) services x).1 =
        (syncServices (c.toAWSClient true) services y).1) := by
  refine syncServices_guard (c.toAWSClient false) (c.toAWSClient true)
    (fun x y => sim x.world y.world ∧ lookupQueries x.events = lookupQueries y.events ∧
      changeRequests y.events = [] ∧
      (changeRequests x.events).length = x.changeErrors.length ∧
      x.panicked = false ∧ y.panicked = false)
    (fun x => ∀ e ∈ x.changeErrors, e = none) ?_ ?_ ?_ services x y hxy
  · intro d a b hab
    obtain ⟨hs, hq, hcr, hlen, hpa, hpb⟩ := hab
    obtain ⟨o, o1, ho, ho1, hret, hev, hst, hfree⟩ :=
      GetHostedZoneID_rel c d (a.world, a.world) (b.world, b.world) sim hsdk.1
        (fun input => (hzones input _ _ hs).1) hs (fun input => (hzones input _ _ hs).2)
    have hfree1 : changeRequests o1.events = [] := by rw [← hev]; exact hfree
    simp only [AWSClientImpl.toAWSClient, hpa, hpb, ho, ho1, Bool.false_eq_true, if_false,
      lookupQueries_append, changeRequests_append, hfree, hfree1, hcr, List.append_nil, hq, hev,
      hret, hlen, and_self, true_and]
    exact ⟨⟨hst, trivial⟩, fun h => h⟩
  · intro h a b hab
    obtain ⟨hs, hq, hcr, hlen, hpa, hpb⟩ := hab
    obtain ⟨o, o1, ho, ho1, hret, hev, hst, hfree⟩ :=
      GetLoadBalancerHostedZoneID_rel c h (a.world, a.world) (b.world, b.world) sim hsdk.2
        (fun input => (hlbs input _ _ hs).1) hs (fun input => (hlbs input _ _ hs).2)
    have hfree1 : changeRequests o1.events = [] := by rw [← hev]; exact hfree
    simp only [AWSClientImpl.toAWSClient, hpa, hpb, ho, ho1, Bool.false_eq_true, if_false,
      lookupQueries_append, changeRequests_append, hfree, hfree1, hcr, List.append_nil, hq, hev,
      hret, hlen, and_self, true_and]
    exact ⟨⟨hst, trivial⟩, fun h => h⟩
  · intro h z d zd a b hab
    obtain ⟨hs, hq, hcr, hlen, hpa, hpb⟩ := hab
    have hc := hchange (crrsInput h z d zd) a.world b.world hs
    rcases hr : c.route53.ChangeResourceRecordSets (crrsInput h z d zd) a.world with
      ⟨⟨out, err⟩, r1⟩
    rw [hr] at hc
    simp only [AWSClientImpl.toAWSClient, AWSClientImpl.UpdateDNS, hpa, hpb, hr,
      Bool.false_eq_true, if_false, if_true, lookupQueries_append, changeRequests_append]
    refine ⟨⟨hc, ?_, ?_, ?_, trivial, trivial⟩, ?_⟩
    · rw [hq]
      simp [lookupQueries]
    · rw [hcr]
      simp [changeRequests]
    · rw [List.length_append, List.length_append, hlen]
      simp [changeRequests]
    · intro hall
      refine ⟨fun e he => hall e (List.mem_append_left _ he), ?_⟩
      exact hall err (List.mem_append_right _ (List.mem_singleton_self err))

/-- C23 (as stated) fails for the log lines and for the lookups, in passes
that run to their end without a panic. With a provider whose
`ChangeResourceRecordSets` fails, the live pass logs "Failed to update record
set" where the dry run logs "Created DNS record set". With a zone provider that
fails its listings once a change was submitted, the live pass cannot resolve
the second domain, which the dry run resolves. With a load-balancer provider
that is throttled once a change was submitted, the live pass skips the second
service after three lookups, where the dry run makes four. -/
theorem C23_counterexample :
    ((logLines (SyncRoute53DNSRecords ""
        (KubernetesClientDummy
          [testService ["testpublic-1111111111.us-east-1.elb.amazonaws.com"]
            [("domainNames", "some.domain.com")]] none)
        (AWSClientImpl.toAWSClient true
          ⟨DummyRoute53Client (some ⟨[⟨some "domain.com.", some "/hostedzone/ABC123"⟩]⟩)
            none (some "error"),
            DummyELBClient (some ⟨[⟨some "ELBZONEID"⟩]⟩) none⟩)
        () (ImplState.start ())).trace).getLast? =
      some "Created DNS record set: domainName=some.domain.com, hostedZoneID=ABC123" ∧
    (logLines (SyncRoute53DNSRecords ""
        (KubernetesClientDummy
          [testService ["testpublic-1111111111.us-east-1.elb.amazonaws.com"]
            [("domainNames", "some.domain.com")]] none)
        (AWSClientImpl.toAWSClient false
          ⟨DummyRoute53Client (some ⟨[⟨some "domain.com.", some "/hostedzone/ABC123"⟩]⟩)
            none (some "error"),
            DummyELBClient (some ⟨[⟨some "ELBZONEID"⟩]⟩) none⟩)
        () (ImplState.start ())).trace).getLast? =
      some "Failed to update record set: error" ∧
    (SyncRoute53DNSRecords ""
        (KubernetesClientDummy
          [testService ["testpublic-1111111111.us-east-1.elb.amazonaws.com"]
            [("domainNames", "some.domain.com")]] none)
        (AWSClientImpl.toAWSClient true
          ⟨DummyRoute53Client (some ⟨[⟨some "domain.com.", some "/hostedzone/ABC123"⟩]⟩)
            none (some "error"),
            DummyELBClient (some ⟨[⟨some "ELBZONEID"⟩]⟩) none⟩)
        () (ImplState.start ())).aws.panicked = false ∧
    (SyncRoute53DNSRecords ""
        (KubernetesClientDummy
          [testService ["testpublic-1111111111.us-east-1.elb.amazonaws.com"]
            [("domainNames", "some.domain.com")]] none)
        (AWSClientImpl.toAWSClient false
          ⟨DummyRoute53Client (some ⟨[⟨some "domain.com.", some "/hostedzone/ABC123"⟩]⟩)
            none (some "error"),
            DummyELBClient (some ⟨[⟨some "ELBZONEID"⟩]⟩) none⟩)
        () (ImplState.start ())).aws.panicked = false) ∧
    ((logLines (SyncRoute53DNSRecords ""
        (KubernetesClientDummy
          [testService ["testpublic-1111111111.us-east-1.elb.amazonaws.com"]
            [("domainNames", "a.domain.com, b.domain.com")]] none)
        (AWSClientImpl.toAWSClient true
          ⟨Route53ClientLocking ⟨[⟨some "domain.com.", some "/hostedzone/ABC123"⟩]⟩,
            ELBClientSteady ⟨[⟨some "ELBZONEID"⟩]⟩⟩)
        () (ImplState.start false)).trace).getLast? =
      some "Created DNS record set: domainName=b.domain.com, hostedZoneID=ABC123" ∧
    (logLines (SyncRoute53DNSRecords ""
        (KubernetesClientDummy
          [testService ["testpublic-1111111111.us-east-1.elb.amazonaws.com"]
            [("domainNames", "a.domain.com, b.domain.com")]] none)
        (AWSClientImpl.toAWSClient false
          ⟨Route53ClientLocking ⟨[⟨some "domain.com.", some "/hostedzone/ABC123"⟩]⟩,
            ELBClientSteady ⟨[⟨some "ELBZONEID"⟩]⟩⟩)
        () (ImplState.start false)).trace).getLast? =
      some "Could not find hosted zone: No zone found for domain.com: locked" ∧
    (SyncRoute53DNSRecords ""
        (KubernetesClientDummy
          [testService ["testpublic-1111111111.us-east-1.elb.amazonaws.com"]
            [("domainNames", "a.domain.com, b.domain.com")]] none)
        (AWSClientImpl.toAWSClient false
          ⟨Route53ClientLocking ⟨[⟨some "domain.com.", some "/hostedzone/ABC123"⟩]⟩,
            ELBClientSteady ⟨[⟨some "ELBZONEID"⟩]⟩⟩)
        () (ImplState.start false)).aws.changeErrors = [none] ∧
    (SyncRoute53DNSRecords ""
        (KubernetesClientDummy
          [testService ["testpublic-1111111111.us-east-1.elb.amazonaws.com"]
            [("domainNames", "a.domain.com, b.domain.com")]] none)
        (AWSClientImpl.toAWSClient true
          ⟨Route53ClientLocking ⟨[⟨some "domain.com.", some "/hostedzone/ABC123"⟩]⟩,
            ELBClientSteady ⟨[⟨some "ELBZONEID"⟩]⟩⟩)
        () (ImplState.start false)).aws.panicked = false ∧
    (SyncRoute53DNSRecords ""
        (KubernetesClientDummy
          [testService ["testpublic-1111111111.us-east-1.elb.amazonaws.com"]
            [("domainNames", "a.domain.com, b.domain.com")]] none)
        (AWSClientImpl.toAWSClient false
          ⟨Route53ClientLocking ⟨[⟨some "domain.com.", some "/hostedzone/ABC123"⟩]⟩,
            ELBClientSteady ⟨[⟨some "ELBZONEID"⟩]⟩⟩)
        () (ImplState.start false)).aws.panicked = false) ∧
    ((lookupQueries (SyncRoute53DNSRecords ""
        (KubernetesClientDummy
          [testService ["testpublic-1111111111.us-east-1.elb.amazonaws.com"]
            [("domainNames", "a.domain.com")],
           testService ["other-2222222222.us-east-1.elb.amazonaws.com"]
            [("domainNames", "b.domain.com")]] none)
        (AWSClientImpl.toAWSClient true
          ⟨Route53ClientMarking ⟨[⟨some "domain.com.", some "/hostedzone/ABC123"⟩]⟩,
            ELBClientThrottled ⟨[⟨some "ELBZONEID"⟩]⟩⟩)
        () (ImplState.start false)).aws.events).length = 4 ∧
    (lookupQueries (SyncRoute53DNSRecords ""
        (KubernetesClientDummy
          [testService ["testpublic-1111111111.us-east-1.elb.amazonaws.com"]
            [("domainNames", "a.domain.com")],
           testService ["other-2222222222.us-east-1.elb.amazonaws.com"]
            [("domainNames", "b.domain.com")]] none)
        (AWSClientImpl.toAWSClient false
          ⟨Route53ClientMarking ⟨[⟨some "domain.com.", some "/hostedzone/ABC123"⟩]⟩,
            ELBClientThrottled ⟨[⟨some "ELBZONEID"⟩]⟩⟩)
        () (ImplState.start false)).aws.events).length = 3 ∧
    (SyncRoute53DNSRecords ""
        (KubernetesClientDummy
          [testService ["testpublic-1111111111.us-east-1.elb.amazonaws.com"]
            [("domainNames", "a.domain.com")],
           testService ["other-2222222222.us-east-1.elb.amazonaws.com"]
            [("domainNames", "b.domain.com")]] none)
        (AWSClientImpl.toAWSClient false
          ⟨Route53ClientMarking ⟨[⟨some "domain.com.", some "/hostedzone/ABC123"⟩]⟩,
            ELBClientThrottled ⟨[⟨some "ELBZONEID"⟩]⟩⟩)
        () (ImplState.start false)).aws.changeErrors = [none] ∧
    (SyncRoute53DNSRecords ""
        (KubernetesClientDummy
          [testService ["testpublic-1111111111.us-east-1.elb.amazonaws.com"]
            [("domainNames", "a.domain.com")],
           testService ["other-2222222222.us-east-1.elb.amazonaws.com"]
            [("domainNames", "b.domain.com")]] none)
        (AWSClientImpl.toAWSClient true
          ⟨Route53ClientMarking ⟨[⟨some "domain.com.", some "/hostedzone/ABC123"⟩]⟩,
            ELBClientThrottled ⟨[⟨some "ELBZONEID"⟩]⟩⟩)
        () (ImplState.start false)).aws.panicked = false ∧
    (SyncRoute53DNSRecords ""
        (KubernetesClientDummy
          [testService ["testpublic-1111111111.us-east-1.elb.amazonaws.com"]
            [("domainNames", "a.domain.com")],
           testService ["other-2222222222.us-east-1.elb.amazonaws.com"]
            [("domainNames", "b.domain.com")]] none)
        (AWSClientImpl.toAWSClient false
          ⟨Route53ClientMarking ⟨[⟨some "domain.com.", some "/hostedzone/ABC123"⟩]⟩,
            ELBClientThrottled ⟨[⟨some "ELBZONEID"⟩]⟩⟩)
        () (ImplState.start false)).aws.panicked = false) := by
  refine ⟨⟨by decide, by decide, by decide, by decide⟩,
    ⟨by decide, by decide, by decide, by decide, by decide⟩,
    ⟨by decide, by decide, by decide, by decide, by decide⟩⟩

/-- C23 (amended): a pass of `SyncRoute53DNSRecords` over `AWSClientImpl` in
dry-run mode and the same pass in live mode, for every cluster client and
state, over providers that share one world `w`, when (`hsdk`) the providers
answer every lookup with an output or an error, never with neither, and
(`hstart`, `hzones`, `hlbs`, `hchange`) the change requests do not alter what
the lookups answer: there is a relation `sim` between the world of the live
pass and the world of the dry run that holds at the start, under which
`ListHostedZonesByName` and `DescribeLoadBalancers` answer alike and which they
keep, and which a `ChangeResourceRecordSets` request in the world of the live
pass keeps. Then neither pass panics, the dry run sends no
`ChangeResourceRecordSets` request, returns what the live pass returns, and
sends the same `ListHostedZonesByName` and `DescribeLoadBalancers` requests;
the live pass has recorded one returned error per change request it sent; and
when each of these is nil, that is when every `ChangeResourceRecordSets`
request of the live pass succeeded, the two passes produce the same pass-level
events, so the same pass-level log lines. -/
theorem SyncRoute53DNSRecords_dryRun {κ σ : Type} (ns : String)
    (kubernetesClient : KubernetesClient κ) (c : AWSClientImpl σ σ) (k : κ) (w : σ)
    (sim : σ → σ → Prop)
    (hsdk : (∀ input r, (c.route53.ListHostedZonesByName input r).1 ≠ (none, none)) ∧
      (∀ input e, (c.elb.DescribeLoadBalancers input e).1 ≠ (none, none)))
    (hstart : sim w w)
    (hzones : ∀ input u v, sim u v →
      (c.route53.ListHostedZonesByName input u).1 =
        (c.route53.ListHostedZonesByName input v).1 ∧
      sim (c.route53.ListHostedZonesByName input u).2
        (c.route53.ListHostedZonesByName input v).2)
    (hlbs : ∀ input u v, sim u v →
      (c.elb.DescribeLoadBalancers input u).1 = (c.elb.DescribeLoadBalancers input v).1 ∧
      sim (c.elb.DescribeLoadBalancers input u).2 (c.elb.DescribeLoadBalancers input v).2)
    (hchange : ∀ input u v, sim u v → sim (c.route53.ChangeResourceRecordSets input u).2 v) :
    (SyncRoute53DNSRecords ns kubernetesClient (c.toAWSClient true) k
      (ImplState.start w)).aws.panicked = false ∧
    (SyncRoute53DNSRecords ns kubernetesClient (c.toAWSClient false) k
      (ImplState.start w)).aws.panicked = false ∧
    changeRequests (SyncRoute53DNSRecords ns kubernetesClient (c.toAWSClient true) k
      (ImplState.start w)).aws.events = [] ∧
    (SyncRoute53DNSRecords ns kubernetesClient (c.toAWSClient true) k
        (ImplState.start w)).err =
      (SyncRoute53DNSRecords ns kubernetesClient (c.toAWSClient false) k
        (ImplState.start w)).err ∧
    lookupQueries (SyncRoute53DNSRecords ns kubernetesClient (c.toAWSClient true) k
        (ImplState.start w)).aws.events =
      lookupQueries (SyncRoute53DNSRecords ns kubernetesClient (c.toAWSClient false) k
        (ImplState.start w)).aws.events ∧
    (changeRequests (SyncRoute53DNSRecords ns kubernetesClient (c.toAWSClient false) k
        (ImplState.start w)).aws.events).length =
      (SyncRoute53DNSRecords ns kubernetesClient (c.toAWSClient false) k
        (ImplState.start w)).aws.changeErrors.length ∧
    ((∀ e ∈ (SyncRoute53DNSRecords ns kubernetesClient (c.toAWSClient false) k
        (ImplState.start w)).aws.changeErrors, e = none) →
      (SyncRoute53DNSRecords ns kubernetesClient (c.toAWSClient true) k
          (ImplState.start w)).trace =
        (SyncRoute53DNSRecords ns kubernetesClient (c.toAWSClient false) k
          (ImplState.start w)).trace ∧
      logLines (SyncRoute53DNSRecords ns kubernetesClient (c.toAWSClient true) k
          (ImplState.start w)).trace =
        logLines (SyncRoute53DNSRecords ns kubernetesClient (c.toAWSClient false) k
          (ImplState.start w)).trace) := by
  rcases hl : kubernetesClient.GetDNSServices ns "dns=route53" k with ⟨⟨services, _ | err⟩, k1⟩
  · obtain ⟨⟨_, hq, hfree, hlen, hp1, hp2⟩, hG⟩ :=
      syncServices_live_dryRun c sim hsdk hzones hlbs hchange services
        (ImplState.start w) (ImplState.start w) ⟨hstart, rfl, rfl, rfl, rfl, rfl⟩
    simp only [SyncRoute53DNSRecords, hl]
    refine ⟨hp2, hp1, hfree, trivial, hq.symm, hlen, ?_⟩
    intro hall
    have ht := (hG hall).2
    simp only [ht, and_self]
  · simp only [SyncRoute53DNSRecords, hl]
    exact ⟨rfl, rfl, rfl, trivial, trivial, rfl, fun _ => ⟨trivial, trivial⟩⟩

/-- C23 witness: the service of the end-to-end test against providers that
share a world in which a change is recorded and which no lookup reads. The dry
run sends the two lookups and no change, the one change request of the live
pass succeeds, and the dry run logs what the live pass logs. -/
theorem SyncRoute53DNSRecords_dryRun_witness :
    (SyncRoute53DNSRecords ""
        (KubernetesClientDummy
          [testService ["testpublic-1111111111.us-east-1.elb.amazonaws.com"]
            [("domainNames", "some.domain.com")]] none)
        (AWSClientImpl.toAWSClient true
          ⟨Route53ClientMarking ⟨[⟨some "domain.com.", some "/hostedzone/ABC123"⟩]⟩,
            ELBClientSteady ⟨[⟨some "ELBZONEID"⟩]⟩⟩)
        () (ImplState.start false)).aws.events =
      [.call (.DescribeLoadBalancers { LoadBalancerNames := [some "testpublic"] }),
        .call (.ListHostedZonesByName { DNSName := some "domain.com" }),
        .log ("DRY RUN: We normally would have updated ABC123 to point to ELBZONEID " ++
          "(testpublic-1111111111.us-east-1.elb.amazonaws.com)")] ∧
    (SyncRoute53DNSRecords ""
        (KubernetesClientDummy
          [testService ["testpublic-1111111111.us-east-1.elb.amazonaws.com"]
            [("domainNames", "some.domain.com")]] none)
        (AWSClientImpl.toAWSClient false
          ⟨Route53ClientMarking ⟨[⟨some "domain.com.", some "/hostedzone/ABC123"⟩]⟩,
            ELBClientSteady ⟨[⟨some "ELBZONEID"⟩]⟩⟩)
        () (ImplState.start false)).aws.world = true ∧
    (SyncRoute53DNSRecords ""
        (KubernetesClientDummy
          [testService ["testpublic-1111111111.us-east-1.elb.amazonaws.com"]
            [("domainNames", "some.domain.com")]] none)
        (AWSClientImpl.toAWSClient false
          ⟨Route53ClientMarking ⟨[⟨some "domain.com.", some "/hostedzone/ABC123"⟩]⟩,
            ELBClientSteady ⟨[⟨some "ELBZONEID"⟩]⟩⟩)
        () (ImplState.start false)).aws.changeErrors = [none] ∧
    logLines (SyncRoute53DNSRecords ""
        (KubernetesClientDummy
          [testService ["testpublic-1111111111.us-east-1.elb.amazonaws.com"]
            [("domainNames", "some.domain.com")]] none)
        (AWSClientImpl.toAWSClient true
          ⟨Route53ClientMarking ⟨[⟨some "domain.com.", some "/hostedzone/ABC123"⟩]⟩,
            ELBClientSteady ⟨[⟨some "ELBZONEID"⟩]⟩⟩)
        () (ImplState.start false)).trace =
      logLines (SyncRoute53DNSRecords ""
        (KubernetesClientDummy
          [testService ["testpublic-1111111111.us-east-1.elb.amazonaws.com"]
            [("domainNames", "some.domain.com")]] none)
        (AWSClientImpl.toAWSClient false
          ⟨Route53ClientMarking ⟨[⟨some "domain.com.", some "/hostedzone/ABC123"⟩]⟩,
            ELBClientSteady ⟨[⟨some "ELBZONEID"⟩]⟩⟩)
        () (ImplState.start false)).trace :=
  ⟨by decide, by decide, by decide,
    ((SyncRoute53DNSRecords_dryRun ""
      (KubernetesClientDummy
        [testService ["testpublic-1111111111.us-east-1.elb.amazonaws.com"]
          [("domainNames", "some.domain.com")]] none)
      ⟨Route53ClientMarking ⟨[⟨some "domain.com.", some "/hostedzone/ABC123"⟩]⟩,
        ELBClientSteady ⟨[⟨some "ELBZONEID"⟩]⟩⟩
      () false (fun _ _ => True)
      ⟨fun _ _ => by simp [Route53ClientMarking], fun _ _ => by simp [ELBClientSteady]⟩
      trivial
      (fun _ _ _ _ => ⟨rfl, trivial⟩)
      (fun _ _ _ _ => ⟨rfl, trivial⟩)
      (fun _ _ _ _ => trivial)).2.2.2.2.2.2 (by decide)).2⟩

end DnsUpdate
